import Mathlib

/-!
Verification development for the drake language front end.

The definitions below are shallow embeddings, translated function by
function from the repository sources:

* `Drake.*` embeds the string-cursor backtracking parser of
  `drake/parser.py` together with the parse-tree data model of
  `drake/parsetree.py` (node equality in the source is dataclass equality
  with the `location` field excluded via `compare=False`, so nodes are
  represented here without a location field; the `location=` arguments of
  `withnode` are therefore dropped, they influence no observable value).
* `Src.*` embeds the token-stream parser of `src/parser.py` over the token
  model of `src/lexer.py`.
* `Scopes.*`, `Types.*` and `Analyse.*` embed `scopes.py`, `types.py` and
  `analyser.py`.

Python exceptions become explicit error values (`Except`); the source
distinguishes `ParseFailed` (caught by backtracking combinators) from all
other exceptions (which propagate), and the embedding preserves that
distinction by testing the error kind wherever the source has
`except ParseFailed`.
-/

namespace Drake

/-- Class names of the parse-tree dataclasses in `drake/parsetree.py`.
Dataclass equality requires the classes to be identical, so subclasses with
the same fields (for instance `ModuleNode` vs `ObjectNode`) stay distinct. -/
inductive NodeK where
  | IdentifierNode | StringNode | NumberNode | BooleanNode | NoneNode
  | RangeNode | ListNode | TupleNode | PairNode | MappingNode | BlockNode
  | SubscriptNode | LookupNode | KwargNode | CallNode | UnaryOpNode | BinaryOpNode
  | VParamNode | KwParamNode | LambdaNode | IterNode | DoNode | ObjectNode
  | EnumNode | ModuleNode | ExceptionNode | MutableNode | ThrowNode | ReturnNode
  | YieldNode | YieldFromNode | BreakNode | ContinueNode | PassNode
  | IfNode | CaseNode | CatchNode | TryNode | ForNode | WhileNode
  | TypeNode | DeclarationNode | TargetNode | AssignmentNode
  deriving DecidableEq, Repr

/-- One entry of the `parsed` stack of `drake/parser.py`.  The stack holds
raw matched strings (pushed with `parse=True`), `None`, booleans, Python
lists (built by the `List` helper) and parse-tree nodes.  A node is its
class together with the ordered field values, which is exactly what
dataclass equality compares once `location` (`compare=False`) is removed. -/
inductive Item where
  | text (s : String)
  | nul
  | bool (b : Bool)
  | lnil
  | lcons (hd tl : Item)
  | node (k : NodeK) (fields : Item)
  deriving DecidableEq, Repr

/-- A Python list value as an `Item` (a `lcons` chain). -/
def Item.ofList (xs : List Item) : Item := xs.foldr .lcons .lnil

/-- A parse-tree node from its class and ordered field values. -/
def Item.mkNode (k : NodeK) (fields : List Item) : Item :=
  .node k (Item.ofList fields)

/-- The regular expressions compiled at the top of `drake/parser.py`,
plus `lit s` for `re.compile(re.escape(s))` produced inside
`Parser.match` for plain-string tokens. -/
inductive Reg where
  | WHITESPACE | COMMENT | NEWLINE | EOF | IDENTIFIER | STRING
  | BINARY | OCTAL | HEXADECIMAL | DECIMAL
  | lit (s : String)
  deriving DecidableEq, Repr

/-- `[^\S\r\n]` — whitespace other than a line break (ASCII range; the
sources contain only ASCII whitespace). -/
def isSpaceNotNL (c : Char) : Bool :=
  c = ' ' || c = '\t' || c = '\x0b' || c = '\x0c'

/-- `\w` (ASCII range). -/
def isWordChar (c : Char) : Bool :=
  c.isAlphanum || c = '_'

/-- `(?:_?d)+` for a digit class `isD`: the number of characters consumed
by the greedy repetition (0 when no unit matches). -/
def unitsLen (isD : Char → Bool) : List Char → Nat
  | '_' :: c :: rest => if isD c then 2 + unitsLen isD rest else 0
  | c :: rest => if isD c then 1 + unitsLen isD rest else 0
  | [] => 0

def isBinDigit (c : Char) : Bool := c = '0' || c = '1'

def isOctDigit (c : Char) : Bool := '0' ≤ c && c ≤ '7'

def isHexDigit (c : Char) : Bool :=
  c.isDigit || ('a' ≤ c && c ≤ 'f') || ('A' ≤ c && c ≤ 'F')

/-- Scanner for the body of the STRING pattern
`(?:[^\\\n]|\\.)*?` up to the closing quote `q` (non-greedy, so the first
reachable closing quote ends the match); `acc` counts the opening quote
plus the body consumed so far. -/
def strScan (q : Char) : List Char → Nat → Option Nat
  | [], _ => none
  | c :: rest, acc =>
    if c = q then some (acc + 1)
    else if c = '\n' then none
    else if c = '\\' then
      match rest with
      | [] => none
      | d :: rest2 => if d = '\n' then none else strScan q rest2 (acc + 2)
    else strScan q rest (acc + 1)

/-- The apostrophe character, `'`. -/
def quoteChar : Char := Char.ofNat 39

/-- `0b(?:_?[01])+`-style patterns: the two-character base prefix followed
by at least one digit unit. -/
def basedLen (p1 p2 : Char) (isD : Char → Bool) : List Char → Option Nat
  | a :: b :: rest =>
    if a = p1 && b = p2 then
      let u := unitsLen isD rest
      if u = 0 then none else some (2 + u)
    else none
  | _ => none

/-- The DECIMAL pattern
`[0-9](?:_?[0-9])*(?:\.[0-9](?:_?[0-9])*)?(?:[eE][+-]?[0-9](?:_?[0-9])*)?[jJ]?`. -/
def decimalLen (cs : List Char) : Option Nat :=
  match cs with
  | c :: rest =>
    if c.isDigit then
      let n1 := 1 + unitsLen Char.isDigit rest
      let rest1 := cs.drop n1
      let n2 :=
        match rest1 with
        | '.' :: d :: rest2 =>
          if d.isDigit then n1 + 2 + unitsLen Char.isDigit rest2 else n1
        | _ => n1
      let rest2 := cs.drop n2
      let n3 :=
        match rest2 with
        | e :: more =>
          if e = 'e' || e = 'E' then
            match more with
            | s :: d :: rest3 =>
              if (s = '+' || s = '-') && d.isDigit then
                n2 + 3 + unitsLen Char.isDigit rest3
              else if s.isDigit then n2 + 2 + unitsLen Char.isDigit (d :: rest3)
              else n2
            | [d] => if d.isDigit then n2 + 2 else n2
            | [] => n2
          else n2
        | [] => n2
      let rest3 := cs.drop n3
      match rest3 with
      | j :: _ => if j = 'j' || j = 'J' then some (n3 + 1) else some n3
      | [] => some n3
    else none
  | [] => none

/-- `[a-zA-Z_]\w*[!?]?`. -/
def identLen : List Char → Option Nat
  | c :: rest =>
    if c.isAlpha || c = '_' then
      let n := 1 + (rest.takeWhile isWordChar).length
      match (c :: rest).drop n with
      | d :: _ => if d = '!' || d = '?' then some (n + 1) else some n
      | [] => some n
    else none
  | [] => none

/-- `re.Pattern.match` at the head of `cs`: the length of the match, if
any, for each compiled pattern of `drake/parser.py`. -/
def regMatch : Reg → List Char → Option Nat
  | .WHITESPACE, cs => some (cs.takeWhile isSpaceNotNL).length
  | .COMMENT, cs =>
    match cs with
    | '/' :: '/' :: rest => some (2 + (rest.takeWhile (· ≠ '\n')).length)
    | _ => some 0
  | .NEWLINE, cs =>
    match cs with
    | '\r' :: '\n' :: _ => some 2
    | '\r' :: _ => some 1
    | '\n' :: _ => some 1
    | _ => none
  | .EOF, cs => if cs.isEmpty then some 0 else none
  | .IDENTIFIER, cs => identLen cs
  | .STRING, cs =>
    match cs with
    | c :: rest => if c = quoteChar || c = '"' then strScan c rest 1 else none
    | [] => none
  | .BINARY, cs => basedLen '0' 'b' isBinDigit cs
  | .OCTAL, cs => basedLen '0' 'o' isOctDigit cs
  | .HEXADECIMAL, cs => basedLen '0' 'x' isHexDigit cs
  | .DECIMAL, cs => decimalLen cs
  | .lit s, cs => if s.toList.isPrefixOf cs then some s.length else none

/-- The errors a parse attempt can produce.  `parseFailed` is the
backtracking signal `ParseFailed(text, location)`; `valueError` is the
`ValueError` pre-seeded in `Parser.choices`; `pythonError` stands for the
`TypeError`/`NameError` crashes at the node-construction sites whose
argument count no longer matches the dataclass (`AssignmentNode`,
`LambdaNode`, `DeclarationNode` in `param`, `CallNode` in `primary`);
`fuelErr` is exhaustion of the recursion fuel, which never occurs for the
inputs considered here.  The source never raises `InvalidSyntax`; its
class from `drake/parser.py` is represented by `invalidSyn` so that its
absence can be stated. -/
inductive PErr where
  | parseFailed (text : String) (loc : Nat × Nat)
  | invalidSyn (error : String) (loc : Nat × Nat)
  | valueError
  | pythonError
  | fuelErr
  deriving DecidableEq, Repr

def PErr.isPF : PErr → Bool
  | .parseFailed _ _ => true
  | _ => false

/-- The immutable parser state of `drake/parser.py` (`Parser` dataclass):
source text, cursor, 0-based line and column, and the `parsed` stack. -/
structure PState where
  source : List Char
  cursor : Nat
  linenum : Nat
  column : Nat
  parsed : List Item
  deriving DecidableEq, Repr

abbrev PRes := Except PErr PState

def PState.location (p : PState) : Nat × Nat := (p.linenum, p.column)

def PState.init (s : String) : PState := ⟨s.toList, 0, 0, 0, []⟩

def addparsed (its : List Item) (p : PState) : PState :=
  { p with parsed := p.parsed ++ its }

/-- `Parser.withnode`: when `fromparsed = some n`, the last `n` stack
entries are popped and appended to `args`, and the freshly built node is
pushed (its `location` attribute does not participate in node equality and
is not represented). -/
def withnode (k : NodeK) (args : List Item) (fromparsed : Option Nat) (p : PState) : PState :=
  match fromparsed with
  | none => { p with parsed := p.parsed ++ [Item.mkNode k args] }
  | some n =>
    let kept := p.parsed.take (p.parsed.length - n)
    let popped := p.parsed.drop (p.parsed.length - n)
    { p with parsed := kept ++ [Item.mkNode k (args ++ popped)] }

/-- `withnode` at a call site whose node class has trailing fields with
default values not supplied by the call (only `TypeNode`'s `params=[]`):
the defaults are materialized so that node equality matches dataclass
equality. -/
def withnodeDef (k : NodeK) (args : List Item) (n : Nat) (defaults : List Item) (p : PState) : PState :=
  let kept := p.parsed.take (p.parsed.length - n)
  let popped := p.parsed.drop (p.parsed.length - n)
  { p with parsed := kept ++ [Item.mkNode k (args ++ popped ++ defaults)] }

/-- `withnode` with the `List` helper as node class: pops `n` entries and
pushes them back as one Python list. -/
def withlist (n : Nat) (p : PState) : PState :=
  let kept := p.parsed.take (p.parsed.length - n)
  let popped := p.parsed.drop (p.parsed.length - n)
  { p with parsed := kept ++ [Item.ofList popped] }

/-- `Parser.raw_match`: match `pat` at the cursor or raise
`ParseFailed(text, location)`; on success advance cursor and column by the
match length and, with `parse`, push the matched text. -/
def raw_match (pat : Reg) (text : String) (parse : Bool) (p : PState) : PRes :=
  match regMatch pat (p.source.drop p.cursor) with
  | none => .error (.parseFailed text (p.linenum, p.column))
  | some len =>
    let q := { p with cursor := p.cursor + len, column := p.column + len }
    if parse then
      .ok (addparsed [Item.text (String.mk ((p.source.drop p.cursor).take len))] q)
    else .ok q

/-- `Parser.skip` = whitespace then comment (both patterns always match). -/
def skip (p : PState) : PRes := do
  let q ← raw_match .WHITESPACE "whitespace" false p
  raw_match .COMMENT "comment" false q

/-- Python `repr` of a simple string (used by `Parser.match` as the
default failure text for literal tokens; none of them contain quotes). -/
def reprS (s : String) : String :=
  String.mk (quoteChar :: s.toList ++ [quoteChar])

/-- A token argument of `Parser.match`/`Parser.choices`: either a plain
string (escaped into a literal pattern, failure text its `repr`) or a
compiled pattern with an explicit text. -/
inductive Tok where
  | s (lit : String)
  | re (r : Reg) (text : String)
  deriving DecidableEq, Repr

/-- `Parser.match`. -/
def matchT (t : Tok) (parse : Bool) (p : PState) : PRes := do
  match t with
  | .s lit => skip (← raw_match (.lit lit) (reprS lit) parse p)
  | .re r text => skip (← raw_match r text parse p)

def matchS (lit : String) (p : PState) : PRes := matchT (.s lit) false p

/-- `contextlib.suppress(ParseFailed)` around a computation whose result is
`r`: on `ParseFailed` keep the prior state `p`; any other exception
propagates. -/
def optionalPF (r : PRes) (p : PState) : PRes :=
  match r with
  | .ok q => .ok q
  | .error e => if e.isPF then .ok p else .error e

/-- `try: ... except ParseFailed: fallback`. -/
def orElsePF (r : PRes) (fallback : Unit → PRes) : PRes :=
  match r with
  | .ok q => .ok q
  | .error e => if e.isPF then fallback () else .error e

/-- `Parser.newline`: one line break (resetting the column, incrementing
the line), trailing whitespace/comment, then optionally further blank
lines. -/
def newline : Nat → PState → PRes
  | 0, _ => .error .fuelErr
  | fuel+1, p => do
    let q0 ← raw_match .NEWLINE "newline" false p
    let q1 ← skip { q0 with linenum := p.linenum + 1, column := 0 }
    optionalPF (newline fuel q1) q1

/-- The loop of `Parser.choices`: try each token against the same state;
keep the latest `ParseFailed` and raise it (or the pre-seeded `ValueError`)
when every token fails. -/
def choicesGo (parse : Bool) (p : PState) : List Tok → PErr → PRes
  | [], err => .error err
  | t :: rest, _ =>
    match matchT t parse p with
    | .ok q => .ok q
    | .error e => if e.isPF then choicesGo parse p rest e else .error e

/-- `Parser.choices`. -/
def choices (toks : List Tok) (parse : Bool) (p : PState) : PRes :=
  choicesGo parse p toks .valueError

/-- The ordered-choice loop shared by `Parser.expression`,
`Parser.keyword`, `Parser.atom`, `Parser.literal` (and the item loops of
`iter`/`mutable`): try each alternative rule against the same state,
remember the last `ParseFailed`, and re-raise it when every alternative
fails (with no alternative, the loop variable is unbound — a `NameError`,
represented by `pythonError`). -/
def tryEach (p : PState) : List (PState → PRes) → Option PErr → PRes
  | [], none => .error .pythonError
  | [], some e => .error e
  | f :: rest, acc =>
    match f p with
    | .ok q => .ok q
    | .error e => if e.isPF then tryEach p rest (some e) else
        match acc with | _ => .error e

def tryEach0 (p : PState) (alts : List (PState → PRes)) : PRes :=
  tryEach p alts none

/-- The newline-separated item loop inside `Parser.nodelist`
(`while True: parser = item(parser.newline()); num += 1`): ends with the
`ParseFailed` that stopped it, returning the last completed state and the
item count; any other exception propagates. -/
def nlLoop (fuel : Nat) (item : PState → PRes) (p : PState) (num : Nat) :
    Except PErr (PState × Nat × PErr) :=
  match fuel with
  | 0 => .error .fuelErr
  | fuel+1 =>
    match (do let a ← newline fuel p; item a) with
    | .ok q => nlLoop fuel item q (num + 1)
    | .error e => if e.isPF then .ok (p, num, e) else .error e

/-- The comma-separated item loop inside `Parser.nodelist`: on a
`ParseFailed` anywhere in an iteration the surrounding
`suppress(ParseFailed)` leaves the state from before that iteration. -/
def commaLoop (fuel : Nat) (item : PState → PRes) (p : PState) (num : Nat) :
    Except PErr (PState × Nat) :=
  match fuel with
  | 0 => .error .fuelErr
  | fuel+1 =>
    match matchS "," p with
    | .error e => if e.isPF then .ok (p, num) else .error e
    | .ok p1 =>
      match optionalPF (newline fuel p1) p1 with
      | .error e => .error e
      | .ok p2 =>
        match item p2 with
        | .error e => if e.isPF then .ok (p, num) else .error e
        | .ok p3 => commaLoop fuel item p3 (num + 1)

/-- `Parser.nodelist`: optional leading blank lines, one item, then either
further newline-separated items, or (only when the newline-separated loop
failed on its first iteration, re-raising into the outer handler)
comma-separated items with an optional trailing comma; optional trailing
blank lines; finally the `num` collected nodes are replaced by one list. -/
def nodelist (fuel : Nat) (item : PState → PRes) (p : PState) : PRes := do
  let p0 ← optionalPF (newline fuel p) p
  let p1 ← item p0
  match nlLoop fuel item p1 1 with
  | .error e => .error e
  | .ok (p2, num, _) =>
    if num = 1 then do
      let (p3, num2) ← commaLoop fuel item p2 1
      let p4 ← optionalPF (matchS "," p3) p3
      let p5 ← optionalPF (newline fuel p4) p4
      pure (withlist num2 p5)
    else do
      let p5 ← optionalPF (newline fuel p2) p2
      pure (withlist num p5)

/-- `Parser.delimitedlist`. -/
def delimitedlist (fuel : Nat) (item : PState → PRes) (forcelist : Bool) (p : PState) : PRes :=
  orElsePF (do
      let a ← matchS "(" p
      let b ← nodelist fuel item a
      matchS ")" b)
    (fun _ =>
      if forcelist then do
        let q ← item p
        pure (withlist 1 q)
      else item p)

/-- The operator/operand loop of `Parser.leftrecurse`: repeatedly match an
operator (via `choices`, pushing its text) and an operand, folding the top
three stack entries into a `BinaryOpNode`; a `ParseFailed` ends the loop at
the last completed state. -/
def lrLoop (fuel : Nat) (ops : List Tok) (item : PState → PRes) (p : PState) : PRes :=
  match fuel with
  | 0 => .error .fuelErr
  | fuel+1 =>
    match (do
        let a ← choices ops true p
        let b ← item a
        pure (withnode .BinaryOpNode [] (some 3) b)) with
    | .ok q => lrLoop fuel ops item q
    | .error e => if e.isPF then .ok p else .error e

/-- `Parser.leftrecurse`. -/
def leftrecurse (fuel : Nat) (ops : List Tok) (item : PState → PRes) (p : PState) : PRes := do
  let q ← item p
  lrLoop fuel ops item q

/-- `Parser.rightrecurse`. -/
def rightrecurse : Nat → List Tok → (PState → PRes) → PState → PRes
  | 0, _, _, _ => .error .fuelErr
  | fuel+1, ops, item, p => do
    let q ← item p
    optionalPF (do
      let a ← choices ops true q
      let b ← rightrecurse fuel ops item a
      pure (withnode .BinaryOpNode [] (some 3) b)) q

/-- The `catch` clause loop of `Parser.try_`. -/
def tryCatchLoop (fuel : Nat) (identF exprF : PState → PRes) (p : PState) (num : Nat) :
    Except PErr (PState × Nat × PErr) :=
  match fuel with
  | 0 => .error .fuelErr
  | fuel+1 =>
    match (do
        let a ← matchS "catch" p
        let b ← identF a
        let c ← orElsePF (do let x ← matchS "as" b; identF x)
                  (fun _ => .ok (addparsed [.nul] b))
        let d ← exprF c
        pure (withnode .CatchNode [] (some 3) d)) with
    | .ok q => tryCatchLoop fuel identF exprF q (num + 1)
    | .error e => if e.isPF then .ok (p, num, e) else .error e

/-- The postfix loop of `Parser.primary` (`.attr`, `(args)` or a
subscript); the `(args)` branch reaches
`withnode(CallNode, fromparsed=2)`, a `TypeError` (`CallNode` takes three
fields) followed by `obj = CallNode(obj, args)` on undefined names, so a
successful argument-list match is a crash, not a node. -/
def primaryLoop (fuel : Nat) (identF argF rangeF listF : PState → PRes) (p : PState) : PRes :=
  match fuel with
  | 0 => .error .fuelErr
  | fuel+1 =>
    match (do
        let a ← matchS "." p
        let b ← identF a
        pure (withnode .LookupNode [] (some 2) b)) with
    | .ok q => primaryLoop fuel identF argF rangeF listF q
    | .error e1 =>
      if !e1.isPF then .error e1 else
      match (do
          let a ← matchS "(" p
          let b ← nodelist fuel argF a
          let _ ← matchS ")" b
          (.error .pythonError : PRes)) with
      | .ok q => primaryLoop fuel identF argF rangeF listF q
      | .error e2 =>
        if !e2.isPF then .error e2 else
        match orElsePF (rangeF p) (fun _ => listF p) with
        | .ok q1 => primaryLoop fuel identF argF rangeF listF
            (withnode .SubscriptNode [] (some 2) q1)
        | .error e3 => if e3.isPF then .ok p else .error e3

/-- `'|= ^= &= <<= >>= += -= *= /= %= **='.split()`. -/
def AUGMENTED_ASSIGNMENT : List Tok :=
  [Tok.s "|=", Tok.s "^=", Tok.s "&=", Tok.s "<<=", Tok.s ">>=", Tok.s "+=",
   Tok.s "-=", Tok.s "*=", Tok.s "/=", Tok.s "%=", Tok.s "**="]

/-- The RESERVED word list of `drake/parser.py` — verbatim, including the
missing comma between `'flags'` and `'for'`, which Python concatenates
into the single entry `'flagsfor'`. -/
def RESERVED : List String :=
  ["and", "as", "break", "case", "catch", "const", "continue", "do", "else",
   "enum", "exception", "false", "finally", "flagsfor", "from", "if", "in",
   "is", "iter", "module", "mutable", "none", "nonlocal", "not", "object",
   "or", "pass", "return", "self", "then", "throw", "true", "try", "while",
   "xor", "yield"]

/-- A single-operator rung such as `rightrecurse('or', ...)` passes a bare
string, which `choices(*operators, ...)` unpacks character by character. -/
def unpackOps (s : String) : List Tok :=
  s.toList.map (fun c => Tok.s (String.mk [c]))

/-- One tag per grammar rule (method of `Parser` in `drake/parser.py`);
rule references passed as first-class functions in the source become tags
resolved through `runD`. -/
inductive DTag where
  | program | expression | assignment | target | typehint | type | keyword
  | if_ | case | try_ | for_ | while_ | iter | do_ | object_ | enum | enumitem
  | module | exception | mutable | throw | return_ | yield_ | yieldfrom
  | break_ | continue_ | pass_ | lambda_ | param | declaration
  | boolor | boolxor | booland | inclusion | identity | comparison
  | bitor | bitxor | bitand | shift | addition | product | modulus | exponent
  | unary | primary | arg | atom | mapping | pair | block | list | range
  | grouping | tuple | literal | string | number | boolean | none_ | identifier
  deriving DecidableEq, Repr

/-- The body of every grammar rule of `drake/parser.py`, one case per
method, with recursion through `recur`.  Node-construction sites whose
argument count no longer matches the dataclass (`AssignmentNode` and
`LambdaNode` receive two of three fields, `param`'s `DeclarationNode` two
of three) are `TypeError` crashes in the source and evaluate to
`pythonError` here. -/
def step (fuel : Nat) (recur : DTag → PState → PRes) : DTag → PState → PRes := fun tag p =>
  match tag with
  | .program => do
    let q ← nodelist fuel (recur .expression) p
    let q1 ← raw_match .EOF "eof" false q
    pure (withnode .ModuleNode [] (some 1) (withnode .BlockNode [] (some 1) q1))
  | .expression =>
    tryEach0 p [recur .assignment, recur .keyword, recur .lambda_,
                recur .declaration, recur .boolor]
  | .assignment =>
    orElsePF (do
        let q ← delimitedlist fuel (recur .target) false p
        let q1 ← matchS "=" q
        let _ ← recur .expression q1
        (.error .pythonError : PRes))
      (fun _ => do
        let t ← recur .target p
        let t1 ← choices AUGMENTED_ASSIGNMENT true t
        let _ ← recur .expression t1
        (.error .pythonError : PRes))
  | .target => do
    let q ← orElsePF (choices [Tok.s "nonlocal", Tok.s "const"] true p)
              (fun _ => .ok (addparsed [.text ""] p))
    let q1 ← orElsePF (recur .typehint q) (fun _ => .ok (addparsed [.nul] q))
    let q2 ← recur .identifier q1
    pure (withnode .TargetNode [] (some 3) q2)
  | .typehint => do
    let q ← matchS "<" p
    let q1 ← recur .type q
    matchS ">" q1
  | .type => do
    let q ← recur .identifier p
    let q1 := withnodeDef .TypeNode [] 1 [Item.ofList []] q
    optionalPF (do
      let a ← matchS "[" q1
      let b ← nodelist fuel (recur .type) a
      let c ← matchS "]" b
      pure (withnode .TypeNode [] (some 2) c)) q1
  | .keyword =>
    tryEach0 p [recur .if_, recur .case, recur .try_, recur .for_, recur .while_,
                recur .iter, recur .do_, recur .object_, recur .enum, recur .module,
                recur .exception, recur .mutable, recur .throw, recur .return_,
                recur .yield_, recur .yieldfrom, recur .break_, recur .continue_]
  | .if_ => do
    let q ← matchS "if" p
    let q1 ← recur .expression q
    let q2 ← matchS "then" q1
    let q3 ← recur .expression q2
    let q4 ← orElsePF (do let a ← matchS "else" q3; recur .expression a)
               (fun _ => .ok (addparsed [.nul] q3))
    pure (withnode .IfNode [] (some 3) q4)
  | .case => do
    let q ← matchS "case" p
    let q1 ← recur .expression q
    let q2 ← matchS "in" q1
    let q3 ← recur .mapping q2
    let q4 ← orElsePF (do let a ← matchS "else" q3; recur .expression a)
               (fun _ => .ok (addparsed [.nul] q3))
    pure (withnode .CaseNode [] (some 3) q4)
  | .try_ => do
    let q ← matchS "try" p
    let q1 ← recur .expression q
    match (do
        let a := addparsed [Item.ofList []] q1
        let b ← matchS "finally" a
        recur .expression b) with
    | .ok q2 => pure (withnode .TryNode [] (some 3) q2)
    | .error e =>
      if !e.isPF then .error e else
      match tryCatchLoop fuel (recur .identifier) (recur .expression) q1 0 with
      | .error e2 => .error e2
      | .ok (q2, num, ePF) =>
        if num = 0 then .error ePF
        else do
          let q3 := withlist num q2
          let q4 ← orElsePF (do let a ← matchS "finally" q3; recur .expression a)
                     (fun _ => .ok (addparsed [.nul] q3))
          pure (withnode .TryNode [] (some 3) q4)
  | .for_ => do
    let q ← matchS "for" p
    let q1 ← delimitedlist fuel (recur .identifier) false q
    let q2 ← matchS "in" q1
    let q3 ← recur .expression q2
    let q4 ← recur .block q3
    pure (withnode .ForNode [] (some 3) q4)
  | .while_ => do
    let q ← matchS "while" p
    let q1 ← recur .expression q
    let q2 ← recur .block q1
    pure (withnode .WhileNode [] (some 2) q2)
  | .iter => do
    let q ← matchS "iter" p
    match tryEach0 q [recur .for_, recur .while_, recur .list] with
    | .ok r => .ok (withnode .IterNode [] (some 1) r)
    | .error e => .error e
  | .do_ => do
    let q ← matchS "do" p
    let q1 ← recur .block q
    pure (withnode .DoNode [] (some 1) q1)
  | .object_ => do
    let q ← matchS "object" p
    let q1 ← recur .block q
    pure (withnode .ObjectNode [] (some 1) q1)
  | .enum => do
    let q ← matchS "enum" p
    let q1 ← orElsePF (do let a ← matchS "flags" q; pure (addparsed [.bool true] a))
               (fun _ => .ok (addparsed [.bool false] q))
    let q2 ← matchS "\x7b" q1
    let q3 ← nodelist fuel (recur .enumitem) q2
    let q4 ← matchS "\x7d" q3
    pure (withnode .EnumNode [] (some 2) q4)
  | .enumitem => do
    let q ← recur .identifier p
    let q1 ← orElsePF (do let a ← matchS "=" q; recur .number a)
               (fun _ => .ok (addparsed [.nul] q))
    pure (withnode .PairNode [] (some 2) q1)
  | .module => do
    let q ← matchS "module" p
    let q1 ← recur .block q
    pure (withnode .ModuleNode [] (some 1) q1)
  | .exception => do
    let q ← matchS "exception" p
    let q1 ← recur .block q
    pure (withnode .ExceptionNode [] (some 1) q1)
  | .mutable => do
    let q ← matchS "mutable" p
    match tryEach0 q [recur .object_, recur .mapping, recur .list,
                      recur .tuple, recur .string] with
    | .ok r => .ok (withnode .MutableNode [] (some 1) r)
    | .error e => .error e
  | .throw => do
    let q ← matchS "throw" p
    let q1 ← recur .expression q
    pure (withnode .ThrowNode [] (some 1) q1)
  | .return_ => do
    let q ← matchS "return" p
    let q1 ← recur .expression q
    pure (withnode .ReturnNode [] (some 1) q1)
  | .yield_ => do
    let q ← matchS "yield" p
    let q1 ← recur .expression q
    pure (withnode .YieldNode [] (some 1) q1)
  | .yieldfrom => do
    let q ← matchS "yield" p
    let q1 ← matchS "from" q
    let q2 ← recur .expression q1
    pure (withnode .YieldFromNode [] (some 1) q2)
  | .break_ => do
    let q ← matchS "break" p
    pure (withnode .BreakNode [] none q)
  | .continue_ => do
    let q ← matchS "continue" p
    pure (withnode .ContinueNode [] none q)
  | .pass_ => do
    let q ← matchS "pass" p
    pure (withnode .PassNode [] none q)
  | .lambda_ => do
    let q ← delimitedlist fuel (recur .param) true p
    let q1 ← matchS "->" q
    let _ ← recur .expression q1
    (.error .pythonError : PRes)
  | .param => do
    let q ← recur .typehint p
    let q1 ← orElsePF (matchS "**" q) (fun _ => orElsePF (matchS "*" q) (fun _ => .ok q))
    let _ ← recur .identifier q1
    (.error .pythonError : PRes)
  | .declaration => do
    let q ← orElsePF (do let a ← matchS "const" p; pure (addparsed [.bool true] a))
              (fun _ => .ok (addparsed [.bool false] p))
    let q1 ← recur .typehint q
    let q2 ← recur .identifier q1
    pure (withnode .DeclarationNode [] (some 3) q2)
  | .boolor => rightrecurse fuel (unpackOps "or") (recur .boolxor) p
  | .boolxor => rightrecurse fuel (unpackOps "xor") (recur .booland) p
  | .booland => rightrecurse fuel (unpackOps "and") (recur .inclusion) p
  | .inclusion => do
    let q ← recur .identity p
    optionalPF (do
      let a ← orElsePF (do
          let x ← matchS "not" q
          let y ← matchS "in" x
          pure (addparsed [.text "not in"] y))
        (fun _ => matchT (.s "in") true q)
      let b ← recur .inclusion a
      pure (withnode .BinaryOpNode [] (some 3) b)) q
  | .identity => do
    let q ← recur .comparison p
    optionalPF (do
      let a ← orElsePF (do
          let x ← matchS "is" q
          let y ← matchS "not" x
          pure (addparsed [.text "is not"] y))
        (fun _ => matchT (.s "is") true q)
      let b ← recur .identity a
      pure (withnode .BinaryOpNode [] (some 3) b)) q
  | .comparison =>
    rightrecurse fuel
      [Tok.s "<", Tok.s "<=", Tok.s ">", Tok.s ">=", Tok.s "==", Tok.s "!="]
      (recur .bitor) p
  | .bitor => leftrecurse fuel (unpackOps "|") (recur .bitxor) p
  | .bitxor => leftrecurse fuel (unpackOps "^") (recur .bitand) p
  | .bitand => leftrecurse fuel (unpackOps "&") (recur .shift) p
  | .shift => leftrecurse fuel [Tok.s "<<", Tok.s ">>"] (recur .addition) p
  | .addition => leftrecurse fuel [Tok.s "+", Tok.s "-"] (recur .product) p
  | .product => leftrecurse fuel [Tok.s "*", Tok.s "/"] (recur .modulus) p
  | .modulus => leftrecurse fuel (unpackOps "%") (recur .exponent) p
  | .exponent => rightrecurse fuel (unpackOps "**") (recur .unary) p
  | .unary =>
    orElsePF (do
        let q ← choices [Tok.s "not", Tok.s "!", Tok.s "-"] true p
        let q1 ← recur .unary q
        pure (withnode .UnaryOpNode [] (some 2) q1))
      (fun _ => recur .primary p)
  | .primary => do
    let q ← recur .atom p
    primaryLoop fuel (recur .identifier) (recur .arg) (recur .range) (recur .list) q
  | .arg =>
    orElsePF (do
        let q ← choices [Tok.s "*", Tok.s "**"] true p
        let q1 ← recur .expression q
        pure (withnode .UnaryOpNode [] (some 2) q1))
      (fun _ =>
        orElsePF (do
            let q ← recur .identifier p
            let q1 ← matchS "=" q
            let q2 ← recur .expression q1
            pure (withnode .PairNode [] (some 2) q2))
          (fun _ => recur .expression p))
  | .atom =>
    tryEach0 p [recur .mapping, recur .block, recur .list, recur .grouping,
                recur .tuple, recur .literal, recur .identifier]
  | .mapping => do
    let q ← matchS "\x7b" p
    let q1 ← nodelist fuel (recur .pair) q
    let q2 ← matchS "\x7d" q1
    pure (withnode .MappingNode [] (some 1) q2)
  | .pair => do
    let q ← recur .expression p
    let q1 ← matchS ":" q
    let q2 ← recur .expression q1
    pure (withnode .PairNode [] (some 2) q2)
  | .block => do
    let q ← matchS "\x7b" p
    let q1 ← nodelist fuel (recur .expression) q
    let q2 ← matchS "\x7d" q1
    pure (withnode .BlockNode [] (some 1) q2)
  | .list =>
    orElsePF (do
        let q ← matchS "[" p
        let q1 ← recur .range q
        let q2 ← matchS "]" q1
        pure (withnode .ListNode [] (some 1) q2))
      (fun _ => do
        let q ← matchS "[" p
        let q1 ← nodelist fuel (recur .expression) q
        let q2 ← matchS "]" q1
        pure (withnode .ListNode [] (some 1) q2))
  | .range => do
    let q ← recur .primary p
    let q1 ← matchS ".." q
    let q2 ← orElsePF (recur .primary q1) (fun _ => .ok (addparsed [.nul] q1))
    let q3 ← orElsePF (do let a ← matchS "," q2; recur .primary a)
               (fun _ => .ok (addparsed [.nul] q2))
    pure (withnode .RangeNode [] (some 3) q3)
  | .grouping => do
    let q ← matchS "(" p
    let q1 ← recur .expression q
    matchS ")" q1
  | .tuple => do
    let q ← matchS "(" p
    let q1 ← nodelist fuel (recur .expression) q
    let q2 ← matchS ")" q1
    pure (withnode .TupleNode [] (some 1) q2)
  | .literal =>
    tryEach0 p [recur .string, recur .number, recur .boolean, recur .none_]
  | .string => do
    let q ← matchT (.re .STRING "string") true p
    pure (withnode .StringNode [] (some 1) q)
  | .number => do
    let q ← choices [Tok.re .BINARY "binary", Tok.re .OCTAL "octal",
                     Tok.re .HEXADECIMAL "hexadecimal", Tok.re .DECIMAL "decimal"] true p
    pure (withnode .NumberNode [] (some 1) q)
  | .boolean => do
    let q ← choices [Tok.s "true", Tok.s "false"] true p
    pure (withnode .BooleanNode [] (some 1) q)
  | .none_ => do
    let q ← matchS "none" p
    pure (withnode .NoneNode [] none q)
  | .identifier => do
    let q ← matchT (.re .IDENTIFIER "identifier") true p
    match q.parsed.getLast? with
    | some (.text s) =>
      if s ∈ RESERVED then .error (.parseFailed "identifier" (p.linenum, p.column))
      else .ok (withnode .IdentifierNode [] (some 1) q)
    | _ => .ok (withnode .IdentifierNode [] (some 1) q)

/-- Fueled interpreter for the grammar of `drake/parser.py`. -/
def runD : Nat → DTag → PState → PRes
  | 0, _, _ => .error .fuelErr
  | fuel+1, tag, p => step fuel (runD fuel) tag p

end Drake

namespace Src

/-- A token of `src/lexer.py` (`Token` dataclass; `linenum`/`column` are
`compare=False` and are not represented — nothing proved here inspects
them). -/
structure Token where
  kind : String
  value : String
  deriving DecidableEq, Repr

/-- `Token('EOF', 'eof')`. -/
def EOFtok : Token := ⟨"EOF", "eof"⟩

/-- The remaining token stream of the `Lexer` state (`_nexttoken` is its
head; an exhausted stream peeks the EOF token forever). -/
abbrev TState := List Token

def peekT (s : TState) : Token := s.headD EOFtok

/-- `Lexer._next`: return the head token and advance; after consuming an
opening bracket or a comma a directly following NEWLINE token is skipped
(the nested `self._next()` call in the source). -/
def nextT (s : TState) : Token × TState :=
  match s with
  | [] => (EOFtok, [])
  | t :: rest =>
    let rest2 :=
      if t.kind = "LBRACKET" || t.kind = "LSQUARE" || t.kind = "LBRACE" || t.kind = "COMMA" then
        match rest with
        | u :: more => if u.kind = "NEWLINE" then more else rest
        | [] => rest
      else rest
    (t, rest2)

/-- Errors of `src/parser.py`: `hardSyn` is the user-facing
`InvalidSyntax` (carrying the offending token and the message; the Python
message interpolates the kind tuple, rendered here as the comma-joined
kind names); `pythonError` stands for the crashes at the call sites whose
callee is missing or whose arity is wrong (`enumitemnode`, `booleannode`,
`callnode`, `SubcriptNode`, `kwparamnode` with three arguments, the
`catches` name in `try_`); `fuelErr` is fuel exhaustion, never reached for
the inputs considered. -/
inductive SErr where
  | hardSyn (tokKind tokValue message : String)
  | pythonError
  | fuelErr
  deriving DecidableEq, Repr

/-- `Parser.error`: raise `InvalidSyntax` at the peeked token. -/
def errT (s : TState) (message : String) : SErr :=
  .hardSyn (peekT s).kind (peekT s).value message

/-- `Parser.peek`. -/
def peekK (kinds : List String) (s : TState) : Option Token :=
  let t := peekT s
  if kinds.isEmpty || t.kind ∈ kinds then some t else none

/-- `Parser.maybe`. -/
def maybeK (kinds : List String) (s : TState) : Option (Token × TState) :=
  let t := peekT s
  if kinds.isEmpty || t.kind ∈ kinds then some (nextT s) else none

/-- `Parser.next`. -/
def nextK (kinds : List String) (message : String) (s : TState) : Except SErr (Token × TState) :=
  let t := peekT s
  if kinds.isEmpty || t.kind ∈ kinds then .ok (nextT s)
  else
    let msg := if message = "" then "expected " ++ String.intercalate "," kinds ++ ", got"
               else message
    .error (errT s msg)

/-- Class names of the parse-tree dataclasses in `src/parsetree.py`. -/
inductive SNodeK where
  | NameNode | IdentifierNode | StringNode | NumberNode | BoolNode | NoneNode
  | BreakNode | ContinueNode | PassNode | GroupingNode | PairNode | MappingNode
  | BlockNode | RangeNode | ListNode | TupleNode | SubscriptNode | LookupNode
  | KwargNode | CallNode | UnaryOpNode | BinaryOpNode | VParamNode | KwParamNode
  | LambdaNode | IterNode | DoNode | ObjectNode | EnumNode | ModuleNode
  | ExceptionNode | MutableNode | ThrowNode | YieldNode | YieldFromNode
  | IfNode | CaseNode | CatchNode | TryNode | RaisesNode | ForNode | WhileNode
  | TypeNode | TargetNode | DeclarationNode | AssignmentNode
  deriving DecidableEq, Repr

/-- A Python value produced by the rules of `src/parser.py`: a string, a
boolean, `None`, a list (`lcons` chain) or a parse-tree node (class plus
ordered field values; dataclass equality with `location` excluded). -/
inductive SVal where
  | str (s : String)
  | nul
  | bool (b : Bool)
  | lnil
  | lcons (hd tl : SVal)
  | node (k : SNodeK) (fields : SVal)
  deriving DecidableEq, Repr

def SVal.ofList (xs : List SVal) : SVal := xs.foldr .lcons .lnil

def SVal.mkNode (k : SNodeK) (fields : List SVal) : SVal :=
  .node k (SVal.ofList fields)

/-- `isinstance(v, list)`. -/
def SVal.isListV : SVal → Bool
  | .lnil => true
  | .lcons _ _ => true
  | _ => false

/-- The elements of a list value. -/
def SVal.toListV : SVal → List SVal
  | .lcons a b => a :: SVal.toListV b
  | _ => []

abbrev SRule := TState → Except SErr (SVal × TState)

/-- `Parser._separateditems`: one separator kind, items until the
lookahead, allowing one trailing separator. -/
def separateditems : Nat → SRule → String → String → List SVal → TState →
    Except SErr (List SVal × TState)
  | 0, _, _, _, _, _ => .error .fuelErr
  | fuel+1, itemfunc, separator, lookahead, items, s =>
    match maybeK [separator] s with
    | some (_, s1) =>
      match maybeK [lookahead] s1 with
      | some (_, s2) => .ok (items, s2)
      | none => do
        let (a, s2) ← itemfunc s1
        separateditems fuel itemfunc separator lookahead (items ++ [a]) s2
    | none =>
      match maybeK [lookahead] s with
      | some (_, s1) => .ok (items, s1)
      | none => .error (errT s "")

/-- `Parser._itemlist`: with the first item already parsed, sniff the
separator (newline or comma) or the immediate lookahead; the result is a
Python list, or the bare item when `forcelist` is false and there is a
single item. -/
def itemlistCont (fuel : Nat) (item : SVal) (itemfunc : SRule) (lookahead : String)
    (forcelist : Bool) (s : TState) : Except SErr (SVal × TState) :=
  match maybeK [lookahead] s with
  | some (_, s1) =>
    if forcelist then .ok (SVal.ofList [item], s1) else .ok (item, s1)
  | none =>
    match peekK ["NEWLINE"] s with
    | some _ => do
      let (items, s1) ← separateditems fuel itemfunc "NEWLINE" lookahead [item] s
      if !forcelist && items.length = 1 then .ok (item, s1)
      else .ok (SVal.ofList items, s1)
    | none =>
      match peekK ["COMMA"] s with
      | some _ => do
        let (items, s1) ← separateditems fuel itemfunc "COMMA" lookahead [item] s
        .ok (SVal.ofList items, s1)
      | none => .error (errT s "")

/-- `Parser.itemlist`: an immediate lookahead yields the empty list
without invoking the item rule, otherwise parse the first item and
continue with `_itemlist`. -/
def itemlist (fuel : Nat) (itemfunc : SRule) (lookahead : String) (forcelist : Bool)
    (s : TState) : Except SErr (SVal × TState) :=
  match maybeK [lookahead] s with
  | some (_, s1) => .ok (SVal.ofList [], s1)
  | none => do
    let (item, s1) ← itemfunc s
    itemlistCont fuel item itemfunc lookahead forcelist s1

/-- The keys of `lexer.ASSIGNMENT`, in dictionary order. -/
def ASSIGNKINDS : List String :=
  ["OP_ADDEQ", "OP_SUBEQ", "OP_POWEQ", "OP_MULTEQ", "OP_DIVEQ", "OP_MODEQ",
   "OP_BITANDEQ", "OP_BITXOREQ", "OP_BITOREQ", "OP_LSHIFTEQ", "OP_RSHIFTEQ",
   "OP_ASSIGN"]

/-- One tag per grammar rule of `src/parser.py`; rules taking arguments
(`target(const)`, `assignment(const, targets)`, `lambda_(params)`,
`_primary(obj)`) carry them as payload. -/
inductive STag where
  | parse | expression | declaration | bracketexpr
  | target (const : Bool)
  | assignmentR (const : Bool) (targets : SVal)
  | lambdaR (params : Option (List SVal))
  | param | typedname | type | if_ | case | try_ | for_ | while_ | iter | do_
  | object | enum | enumitem | module | exception | mutable | raises | throw
  | unary | primary
  | primaryCont (obj : SVal)
  | arg | atom | brace | mapping | pair | block | list | bracket
  | literal | string | number | boolean | none_ | break_ | continue_ | pass_
  | identifier | name
  deriving DecidableEq, Repr

/-- The body of every grammar rule of `src/parser.py`, one case per
method.  The node-builder methods are inlined as node constructions with
the field values they actually store (`targetnode` drops its `const`
argument, `rangenode`'s three arguments land on the four fields
`(start, inclusive, end, step)` of `RangeNode`).  Calls into missing or
arity-mismatched builders (`enumitemnode`, `booleannode`, `callnode`,
`SubcriptNode`, three-argument `kwparamnode`, the undefined `catches` of
`try_`) evaluate to `pythonError`. -/
def stepS (fuel : Nat) (recur : STag → SRule) : STag → SRule := fun tag s =>
  match tag with
  | .parse => do
    let (body, s1) ← itemlist fuel (recur .expression) "EOF" true s
    .ok (SVal.mkNode .ModuleNode [body], s1)
  | .expression =>
    let kind := (peekT s).kind
    let next : STag :=
      if kind = "KW_CASE" then .case
      else if kind = "KW_CONST" then .declaration
      else if kind = "KW_LET" then .declaration
      else if kind = "KW_DO" then .do_
      else if kind = "KW_ENUM" then .enum
      else if kind = "KW_EXCEPTION" then .exception
      else if kind = "KW_FOR" then .for_
      else if kind = "KW_IF" then .if_
      else if kind = "KW_ITER" then .iter
      else if kind = "KW_MODULE" then .module
      else if kind = "KW_MUTABLE" then .mutable
      else if kind = "KW_OBJECT" then .object
      else if kind = "KW_RAISES" then .raises
      else if kind = "KW_THROW" then .throw
      else if kind = "KW_TRY" then .try_
      else if kind = "KW_WHILE" then .while_
      else if kind = "OP_MULT" then .lambdaR none
      else if kind = "OP_POW" then .lambdaR none
      else if kind = "OP_LT" then .lambdaR none
      else if kind = "OP_SUB" then .unary
      else if kind = "OP_INV" then .unary
      else if kind = "OP_NOT" then .unary
      else if kind = "LBRACKET" then .bracketexpr
      else .primary
    recur next s
  | .declaration => do
    let (const, s1) ←
      match maybeK ["KW_LET"] s with
      | some (_, s1) => pure (false, s1)
      | none =>
        match maybeK ["KW_CONST"] s with
        | some (_, s1) => pure (true, s1)
        | none => .error (errT s "")
    let (targets, s2) ←
      match maybeK ["LBRACKET"] s1 with
      | some (_, sb) => itemlist fuel (recur (.target const)) "RBRACKET" false sb
      | none => recur (.target const) s1
    if (peekK ASSIGNKINDS s2).isSome then recur (.assignmentR const targets) s2
    else .ok (SVal.mkNode .DeclarationNode [.bool const, targets], s2)
  | .target const => do
    let _ := const
    let (th, nm, s1) ←
      if (peekK ["OP_LT"] s).isSome then do
        let (pairv, s1) ← recur .typedname s
        match pairv with
        | .lcons th (.lcons nm .lnil) => pure (th, nm, s1)
        | _ => .error .pythonError
      else do
        let (nm, s1) ← recur .name s
        pure (SVal.nul, nm, s1)
    .ok (SVal.mkNode .TargetNode [th, nm], s1)
  | .bracketexpr => do
    let (_, s1) ← nextK ["LBRACKET"] "" s
    match maybeK ["RBRACKET"] s1 with
    | some (_, s2) => recur (.primaryCont (SVal.mkNode .TupleNode [SVal.ofList []])) s2
    | none =>
      if (peekK ["OP_MULT", "OP_POW", "OP_LT"] s1).isSome then do
        let (items, s2) ← itemlist fuel (recur .param) "RBRACKET" true s1
        recur (.lambdaR (some items.toListV)) s2
      else do
        let (exprs, s2) ← itemlist fuel (recur .expression) "RBRACKET" false s1
        if exprs.isListV then
          recur (.primaryCont (SVal.mkNode .TupleNode [exprs])) s2
        else
          recur (.primaryCont (SVal.mkNode .GroupingNode [exprs])) s2
  | .assignmentR const targets => do
    let (opTok, s1) ←
      if const then nextK ["OP_ASSIGN"] "const assignment cannot be augmented:" s
      else if targets.isListV then
        nextK ["OP_ASSIGN"] "multiple assignment cannot be augmented:" s
      else nextK ASSIGNKINDS "" s
    let (value, s2) ← recur .expression s1
    .ok (SVal.mkNode .AssignmentNode [.bool const, targets, .str opTok.value, value], s2)
  | .lambdaR params? => do
    let (params, s1) ←
      match params? with
      | some ps => pure (ps, s)
      | none => do
        let (pr, s1) ← recur .param s
        pure ([pr], s1)
    let (_, s2) ← nextK ["LAMBDA"] "" s1
    let (body, s3) ← recur .expression s2
    .ok (SVal.mkNode .LambdaNode [SVal.ofList params, SVal.ofList [], body], s3)
  | .param =>
    (match maybeK ["OP_MULT"] s with
     | some (_, s1) => do
       let (pairv, s2) ← recur .typedname s1
       match pairv with
       | .lcons th (.lcons nm .lnil) =>
         .ok (SVal.mkNode .VParamNode [.bool true, th, nm], s2)
       | _ => .error .pythonError
     | none =>
       match maybeK ["OP_POW"] s with
       | some (_, s1) => do
         let _ ← recur .typedname s1
         -- kwparamnode(True, typehint, name): missing the `default`
         -- positional argument, a TypeError in the source
         (.error .pythonError : Except SErr (SVal × TState))
       | none =>
         if (peekK ["OP_LT"] s).isSome then do
           let (pairv, s1) ← recur .typedname s
           match pairv with
           | .lcons th (.lcons nm .lnil) =>
             (match maybeK ["COLON"] s1 with
              | some (_, s2) => do
                let (value, s3) ← recur .expression s2
                .ok (SVal.mkNode .KwParamNode [.bool false, th, nm, value], s3)
              | none => .ok (SVal.mkNode .VParamNode [.bool false, th, nm], s1))
           | _ => .error .pythonError
         else .error (errT s ""))
  | .typedname => do
    let (_, s1) ← nextK ["OP_LT"] "" s
    let (th, s2) ← recur .type s1
    let (_, s3) ← nextK ["OP_GT"] "" s2
    let (nm, s4) ← recur .name s3
    .ok (SVal.ofList [th, nm], s4)
  | .type => do
    let (nm, s1) ← recur .identifier s
    match maybeK ["LSQUARE"] s1 with
    | some (_, s2) => do
      let (params, s3) ← itemlist fuel (recur .type) "RSQUARE" true s2
      .ok (SVal.mkNode .TypeNode [nm, params], s3)
    | none => .ok (SVal.mkNode .TypeNode [nm, SVal.ofList []], s1)
  | .if_ => do
    let (_, s1) ← nextK ["KW_IF"] "" s
    let (condition, s2) ← recur .expression s1
    let (_, s3) ← nextK ["KW_THEN"] "" s2
    let (iftrue, s4) ← recur .expression s3
    match maybeK ["KW_ELSE"] s4 with
    | some (_, s5) => do
      let (iffalse, s6) ← recur .expression s5
      .ok (SVal.mkNode .IfNode [condition, iftrue, iffalse], s6)
    | none => .ok (SVal.mkNode .IfNode [condition, iftrue, .nul], s4)
  | .case => do
    let (_, s1) ← nextK ["KW_CASE"] "" s
    let (value, s2) ← recur .expression s1
    let (_, s3) ← nextK ["OP_IN"] "" s2
    let (mapv, s4) ← recur .expression s3
    match maybeK ["KW_ELSE"] s4 with
    | some (_, s5) => do
      let (default, s6) ← recur .expression s5
      .ok (SVal.mkNode .CaseNode [value, mapv, default], s6)
    | none => .ok (SVal.mkNode .CaseNode [value, mapv, .nul], s4)
  | .try_ => do
    let (_, s1) ← nextK ["KW_TRY"] "" s
    let (_e, s2) ← recur .expression s1
    let _ := _e
    if (peekK ["KW_CATCH"] s2).isSome then
      -- the catch route is an ellipsis; `trynode(expression, catches)`
      -- then reads the undefined name `catches`, a NameError
      (.error .pythonError : Except SErr (SVal × TState))
    else .error (errT s2 "")
  | .for_ => do
    let (_, s1) ← nextK ["KW_FOR"] "" s
    let (vars, s2) ←
      match maybeK ["LBRACKET"] s1 with
      | some (_, sb) => itemlist fuel (recur .name) "RBRACKET" true sb
      | none => recur .name s1
    let (_, s3) ← nextK ["OP_IN"] "" s2
    let (container, s4) ← recur .expression s3
    let (body, s5) ← recur .block s4
    .ok (SVal.mkNode .ForNode [vars, container, body], s5)
  | .while_ => do
    let (_, s1) ← nextK ["KW_WHILE"] "" s
    let (condition, s2) ← recur .expression s1
    let (body, s3) ← recur .block s2
    .ok (SVal.mkNode .WhileNode [condition, body], s3)
  | .iter => do
    let (_, s1) ← nextK ["KW_ITER"] "" s
    let (iterable, s2) ←
      if (peekK ["LSQUARE"] s1).isSome then recur .list s1
      else if (peekK ["KW_FOR"] s1).isSome then recur .for_ s1
      else if (peekK ["KW_WHILE"] s1).isSome then recur .while_ s1
      else .error (errT s1 "")
    .ok (SVal.mkNode .IterNode [iterable], s2)
  | .do_ => do
    let (_, s1) ← nextK ["KW_DO"] "" s
    let (body, s2) ← recur .block s1
    .ok (SVal.mkNode .DoNode [body], s2)
  | .object => do
    let (_, s1) ← nextK ["KW_OBJECT"] "" s
    let (body, s2) ← recur .block s1
    .ok (SVal.mkNode .ObjectNode [body], s2)
  | .enum => do
    let (_, s1) ← nextK ["KW_ENUM"] "" s
    let (flags, s2) :=
      match maybeK ["KW_FLAGS"] s1 with
      | some (_, sb) => (true, sb)
      | none => (false, s1)
    let (_, s3) ← nextK ["LBRACE"] "" s2
    let (items, s4) ← itemlist fuel (recur .enumitem) "RBRACE" true s3
    .ok (SVal.mkNode .EnumNode [.bool flags, items], s4)
  | .enumitem => do
    let (_, s1) ← recur .name s
    let _ ←
      match maybeK ["OP_ASSIGN"] s1 with
      | some (_, sb) => recur .number sb
      | none => pure (SVal.nul, s1)
    -- `self.enumitemnode(...)` does not exist: AttributeError
    (.error .pythonError : Except SErr (SVal × TState))
  | .module => do
    let (_, s1) ← nextK ["KW_MODULE"] "" s
    let (body, s2) ← recur .block s1
    .ok (SVal.mkNode .ModuleNode [body], s2)
  | .exception => do
    let (_, s1) ← nextK ["KW_EXCEPTION"] "" s
    let (body, s2) ← recur .block s1
    .ok (SVal.mkNode .ExceptionNode [body], s2)
  | .mutable => do
    let (_, s1) ← nextK ["KW_MUTABLE"] "" s
    let (value, s2) ←
      if (peekK ["KW_OBJECT"] s1).isSome then recur .object s1
      else if (peekK ["KW_ITER"] s1).isSome then recur .iter s1
      else if (peekK ["LBRACE"] s1).isSome then recur .mapping s1
      else if (peekK ["LSQUARE"] s1).isSome then recur .list s1
      else if (peekK ["LBRACKET"] s1).isSome then recur .bracket s1
      else if (peekK ["STRING"] s1).isSome then recur .string s1
      else .error (errT s1 "")
    .ok (SVal.mkNode .MutableNode [value], s2)
  | .raises => do
    let (_, s1) ← nextK ["KW_RAISES"] "" s
    let (_, s2) ← nextK ["LBRACKET"] "" s1
    let (expr, s3) ← recur .expression s2
    let (_, s4) ← nextK ["COMMA", "NEWLINE"] "" s3
    let (exc, s5) ← recur .identifier s4
    let s6 := match maybeK ["COMMA", "NEWLINE"] s5 with
      | some (_, sb) => sb
      | none => s5
    let (_, s7) ← nextK ["RBRACKET"] "" s6
    .ok (SVal.mkNode .RaisesNode [expr, exc], s7)
  | .throw => do
    let (_, s1) ← nextK ["KW_THROW"] "" s
    let (expr, s2) ← recur .expression s1
    .ok (SVal.mkNode .ThrowNode [expr], s2)
  | .unary =>
    if (peekK ["OP_SUB", "OP_INV", "OP_NOT"] s).isSome then do
      let (opTok, s1) ← nextK [] "" s
      let (expr, s2) ← recur .unary s1
      .ok (SVal.mkNode .UnaryOpNode [.str opTok.value, expr], s2)
    else recur .primary s
  | .primary => do
    let (a, s1) ← recur .atom s
    recur (.primaryCont a) s1
  | .primaryCont obj =>
    (match maybeK ["DOT"] s with
     | some (_, s1) => do
       let (attr, s2) ← recur .name s1
       recur (.primaryCont (SVal.mkNode .LookupNode [obj, attr])) s2
     | none =>
       match maybeK ["LBRACKET"] s with
       | some (_, s1) => do
         let _ ← itemlist fuel (recur .arg) "RBRACKET" true s1
         -- `self.callnode(obj, args)`: `callnode` takes three positional
         -- arguments, a TypeError
         (.error .pythonError : Except SErr (SVal × TState))
       | none =>
         if (peekK ["LSQUARE"] s).isSome then do
           let _ ← recur .list s
           -- `SubcriptNode` is undefined in `subscriptnode`: NameError
           (.error .pythonError : Except SErr (SVal × TState))
         else .ok (obj, s))
  | .arg =>
    if (peekK ["OP_MULT", "OP_POW"] s).isSome then do
      let (star, s1) ← nextK [] "" s
      let (expr, s2) ← recur .expression s1
      .ok (SVal.mkNode .UnaryOpNode [.str star.value, expr], s2)
    else if (peekK ["NAME"] s).isSome then do
      let (nm, s1) ← recur .name s
      let (_, s2) ← nextK ["COLON"] "" s1
      let (expr, s3) ← recur .expression s2
      .ok (SVal.mkNode .KwargNode [nm, expr], s3)
    else recur .expression s
  | .atom =>
    if (peekK ["LBRACE"] s).isSome then recur .brace s
    else if (peekK ["LSQUARE"] s).isSome then recur .list s
    else if (peekK ["LBRACKET"] s).isSome then recur .bracket s
    else if (peekK ["NAME"] s).isSome then recur .identifier s
    else recur .literal s
  | .brace => do
    let (_, s1) ← nextK ["LBRACE"] "" s
    match maybeK ["RBRACE"] s1 with
    | some (_, s2) => .ok (SVal.mkNode .MappingNode [SVal.ofList []], s2)
    | none => do
      let (expr, s2) ← recur .expression s1
      match maybeK ["COLON"] s2 with
      | some (_, s3) => do
        let (v, s4) ← recur .expression s3
        let pairv := SVal.mkNode .PairNode [expr, v]
        let (items, s5) ← itemlistCont fuel pairv (recur .pair) "RBRACE" true s4
        .ok (SVal.mkNode .MappingNode [items], s5)
      | none => do
        let (items, s3) ← itemlistCont fuel expr (recur .expression) "RBRACE" true s2
        .ok (SVal.mkNode .BlockNode [items], s3)
  | .mapping => do
    let (_, s1) ← nextK ["LBRACE"] "" s
    let (pairs, s2) ← itemlist fuel (recur .pair) "RBRACE" true s1
    .ok (SVal.mkNode .MappingNode [pairs], s2)
  | .pair => do
    let (key, s1) ← recur .expression s
    let (_, s2) ← nextK ["COLON"] "" s1
    let (value, s3) ← recur .expression s2
    .ok (SVal.mkNode .PairNode [key, value], s3)
  | .block => do
    let (_, s1) ← nextK ["LBRACE"] "" s
    let (exprs, s2) ← itemlist fuel (recur .expression) "RBRACE" true s1
    .ok (SVal.mkNode .BlockNode [exprs], s2)
  | .list => do
    let (_, s1) ← nextK ["LSQUARE"] "" s
    match maybeK ["RSQUARE"] s1 with
    | some (_, s2) => .ok (SVal.mkNode .ListNode [SVal.ofList []], s2)
    | none => do
      let (expr, s2) ← recur .expression s1
      match maybeK ["RANGE"] s2 with
      | some (_, s3) =>
        -- `rangenode(start, stop, step)` constructs
        -- `RangeNode(start, inclusive, end, step)` positionally, so the
        -- stop value lands on `inclusive` and the step on `end`
        (match maybeK ["RSQUARE"] s3 with
         | some (_, s4) => .ok (SVal.mkNode .RangeNode [expr, .nul, .nul, .nul], s4)
         | none =>
           match maybeK ["COMMA"] s3 with
           | some (_, s4) => do
             let (stepv, s5) ← recur .unary s4
             .ok (SVal.mkNode .RangeNode [expr, .nul, stepv, .nul], s5)
           | none => do
             let (stopv, s4) ← recur .expression s3
             match maybeK ["RSQUARE"] s4 with
             | some (_, s5) => .ok (SVal.mkNode .RangeNode [expr, stopv, .nul, .nul], s5)
             | none =>
               match maybeK ["COMMA"] s4 with
               | some (_, s5) => do
                 let (stepv, s6) ← recur .unary s5
                 .ok (SVal.mkNode .RangeNode [expr, stopv, stepv, .nul], s6)
               | none => .error (errT s4 ""))
      | none => do
        let (items, s3) ← itemlistCont fuel expr (recur .expression) "RSQUARE" true s2
        .ok (SVal.mkNode .ListNode [items], s3)
  | .bracket => do
    let (_, s1) ← nextK ["LBRACKET"] "" s
    let (exprs, s2) ← itemlist fuel (recur .expression) "RBRACKET" false s1
    if exprs.isListV then .ok (SVal.mkNode .TupleNode [exprs], s2)
    else .ok (SVal.mkNode .GroupingNode [exprs], s2)
  | .literal =>
    if (peekK ["STRING"] s).isSome then recur .string s
    else if (peekK ["NUMBER"] s).isSome then recur .number s
    else if (peekK ["BOOLEAN"] s).isSome then recur .boolean s
    else if (peekK ["NONE"] s).isSome then recur .none_ s
    else if (peekK ["BREAK"] s).isSome then recur .break_ s
    else if (peekK ["CONTINUE"] s).isSome then recur .continue_ s
    else if (peekK ["PASS"] s).isSome then recur .pass_ s
    else .error (errT s "")
  | .string => do
    let (t, s1) ← nextK ["STRING"] "" s
    .ok (SVal.mkNode .StringNode [.str t.value], s1)
  | .number => do
    let (t, s1) ← nextK ["NUMBER"] "" s
    .ok (SVal.mkNode .NumberNode [.str t.value], s1)
  | .boolean => do
    let _ ← nextK ["BOOLEAN"] "" s
    -- `self.booleannode(...)` does not exist (only `boolnode`):
    -- AttributeError
    (.error .pythonError : Except SErr (SVal × TState))
  | .none_ => do
    let (_, s1) ← nextK ["NONE"] "" s
    .ok (SVal.mkNode .NoneNode [], s1)
  | .break_ => do
    let (_, s1) ← nextK ["BREAK"] "" s
    .ok (SVal.mkNode .BreakNode [], s1)
  | .continue_ => do
    let (_, s1) ← nextK ["CONTINUE"] "" s
    .ok (SVal.mkNode .ContinueNode [], s1)
  | .pass_ => do
    let (_, s1) ← nextK ["PASS"] "" s
    .ok (SVal.mkNode .PassNode [], s1)
  | .identifier => do
    let (t, s1) ← nextK ["NAME"] "" s
    .ok (SVal.mkNode .IdentifierNode [.str t.value], s1)
  | .name => do
    let (t, s1) ← nextK ["NAME"] "" s
    .ok (SVal.mkNode .NameNode [.str t.value], s1)

/-- Fueled interpreter for the grammar of `src/parser.py`. -/
def runT : Nat → STag → SRule
  | 0, _, _ => .error .fuelErr
  | fuel+1, tag, s => stepS fuel (runT fuel) tag s

end Src

namespace Low

-- The mutually recursive data model of `types.py` and `scopes.py`:
-- `Type(name, params, mutable, namespace)` with a `Scope` namespace, a
-- `Scope` holding `Binding`s and a parent link (the chain ends at the
-- distinguished builtins scope, `root`), and
-- `Binding(name, type, assigned, const)`.
mutual
inductive Typ : Type where
  | mk (name : String) (params : List Typ) (mutable : Bool) (ns : Scope)
  deriving Repr
inductive Scope : Type where
  | root (bindings : List Binding)
  | child (bindings : List Binding) (parent : Scope)
  deriving Repr
inductive Binding : Type where
  | mk (name : String) (type : Typ) (assigned : Bool) (const : Bool)
  deriving Repr
end

def Typ.name : Typ → String
  | .mk n _ _ _ => n

def Typ.params : Typ → List Typ
  | .mk _ ps _ _ => ps

def Typ.mutable : Typ → Bool
  | .mk _ _ m _ => m

def Typ.ns : Typ → Scope
  | .mk _ _ _ s => s

def Binding.name : Binding → String
  | .mk n _ _ _ => n

def Binding.type : Binding → Typ
  | .mk _ t _ _ => t

def Binding.assigned : Binding → Bool
  | .mk _ _ a _ => a

def Binding.const : Binding → Bool
  | .mk _ _ _ c => c

/-- Dataclass equality of `Type`: `params`, `mutable` and `namespace` are
declared `field(..., compare=False)`, so only `name` is compared. -/
def typeEq (a b : Typ) : Bool := a.name == b.name

/-- `Type.__getitem__` with a single (non-tuple) parameter. -/
def Typ.getitem (t : Typ) (item : Typ) : Typ :=
  .mk t.name [item] t.mutable t.ns

/-- `Type.__getitem__` with a tuple of parameters. -/
def Typ.getitemN (t : Typ) (items : List Typ) : Typ :=
  .mk t.name items t.mutable t.ns

/-- The default namespace `Scope()` (empty, parent the builtins root). -/
def emptyNs : Scope := Scope.child [] (Scope.root [])

def tType : Typ := .mk "Type" [] false emptyNs
def tNone : Typ := .mk "None" [] false emptyNs
def tBoolean : Typ := .mk "Boolean" [] false emptyNs
def tNumber : Typ := .mk "Number" [] false emptyNs
def tString : Typ := .mk "String" [] false emptyNs
def tMutableString : Typ := .mk "MutableString" [] true emptyNs
def tList : Typ := .mk "List" [] false emptyNs
def tMutableList : Typ := .mk "MutableList" [] true emptyNs
def tTuple : Typ := .mk "Tuple" [] false emptyNs
def tMutableTuple : Typ := .mk "MutableTuple" [] true emptyNs
def tMapping : Typ := .mk "Mapping" [] false emptyNs
def tMutableMapping : Typ := .mk "MutableMapping" [] true emptyNs
def tBlock : Typ := .mk "Block" [] false emptyNs
def tLambda : Typ := .mk "Lambda" [] false emptyNs
def tFunction : Typ := .mk "Function" [] false emptyNs
def tIterator : Typ := .mk "Iterator" [] false emptyNs
def tModule : Typ := .mk "Module" [] false emptyNs

/-- Errors of `typecheck`: a structural mismatch, or the `AttributeError`
from `None.name` when `zip_longest` pads parameter lists of different
arity; `fuelErr` never occurs at the recursion depths used here. -/
inductive TCErr where
  | typeMismatch (expected actual : Typ)
  | attrError
  | fuelErr
  deriving Repr

/-- `itertools.zip_longest` with `None` padding. -/
def zipLongest : List Typ → List Typ → List (Option Typ × Option Typ)
  | [], ys => ys.map (fun y => (none, some y))
  | x :: xs, [] => (some x, none) :: zipLongest xs []
  | x :: xs, y :: ys => (some x, some y) :: zipLongest xs ys

/-- The body of `types.typecheck(expected, actual)`: names must agree,
then the parameters are compared pairwise through `zip_longest` (a `None`
produced by arity mismatch raises `AttributeError` at `None.name`). -/
def typecheckStep (recur : Option Typ → Option Typ → Except TCErr Unit) :
    Option Typ → Option Typ → Except TCErr Unit
  | some e, some a =>
    if e.name ≠ a.name then .error (.typeMismatch e a)
    else (zipLongest e.params a.params).foldlM (fun _ pr => recur pr.1 pr.2) ()
  | none, _ => .error .attrError
  | some _, none => .error .attrError

def typecheckF : Nat → Option Typ → Option Typ → Except TCErr Unit
  | 0 => fun _ _ => .error .fuelErr
  | fuel+1 => typecheckStep (typecheckF fuel)

def typecheck (e a : Typ) : Except TCErr Unit := typecheckF 100 (some e) (some a)

/-- `NameNotFound(name, local)`. -/
structure NameNotFoundE where
  name : String
  localArg : Option Bool
  deriving DecidableEq, Repr

/-- The `enumerate`/compare loop of `Scope.index`: the first binding index
carrying the name. -/
def findBinding (bs : List Binding) (name : String) : Option Nat :=
  bs.findIdx? (fun b => b.name = name)

/-- `Scope.index(name, local)` (identical in `drake/scopes.py` and
`src/scopes.py`): search the own frame unless `local` is `False`, then —
unless `local` is `True` — delegate to the parent with `local=None`,
adding one to any non-builtins depth and stamping the propagating
`NameNotFound` with this call's `local`; the builtins root
(`_Builtins.index`) searches only itself and reports depth `-1`
(`drake/scopes.py`'s builtins scope cannot even be constructed — its
`__init__` default references the undefined `_MISSING` — so the root
behaviour is taken from the coherent `src/scopes.py` `_Builtins`). -/
def Scope.index : Scope → String → Option Bool → Except NameNotFoundE (Nat × Int)
  | .child bs parent, name, lcl =>
    match (if lcl ≠ some false then findBinding bs name else none) with
    | some i => .ok (i, 0)
    | none =>
      if lcl ≠ some true then
        match Scope.index parent name none with
        | .ok (i, d) => .ok (i, if d ≠ -1 then d + 1 else d)
        | .error e => .error { e with localArg := lcl }
      else .error ⟨name, lcl⟩
  | .root bs, name, _ =>
    match findBinding bs name with
    | some i => .ok (i, -1)
    | none => .error ⟨name, some true⟩

/-- The chain's builtins root (the module-level `builtins` object that
every chain built through `Scope.__init__`'s default parent ends at). -/
def Scope.rootBindings : Scope → List Binding
  | .root bs => bs
  | .child _ parent => Scope.rootBindings parent

/-- `Scope.get(index, scope)`: depth `-1` reads the builtins root
(`builtins[index]`), `0` the own frame, a positive depth walks up; a
missing slot is an `IndexError` (`none`). -/
def Scope.get : Scope → Nat → Int → Option Binding
  | .child bs parent, i, d =>
    if d = -1 then (Scope.rootBindings (Scope.child bs parent)).get? i
    else if d = 0 then bs.get? i
    else if d > 0 then Scope.get parent i (d - 1)
    else none
  | .root bs, i, _ => bs.get? i

/-- `Scope.child`. -/
def Scope.mkChild (sc : Scope) (bs : List Binding) : Scope := .child bs sc

/-- Errors of the scope layer. -/
inductive ScErr where
  | nameNotFound (e : NameNotFoundE)
  | cannotRebindConstant (name : String)
  | typeMismatch (t1 t2 : Typ)
  | attrError
  | fuelErr
  deriving Repr

def ofTCErr : TCErr → ScErr
  | .typeMismatch e a => .typeMismatch e a
  | .attrError => .attrError
  | .fuelErr => .fuelErr

/-- The `Binding` of `drake/scopes.py`: the dataclass field is
`isassigned`, but `rebind` assigns to `self.assigned`, which creates a
separate attribute (`assignedAttr` here) and leaves `isassigned`
untouched. -/
structure BindingD where
  name : String
  type : Typ
  isassigned : Bool
  const : Bool
  assignedAttr : Option Bool := none
  deriving Repr

/-- `Binding.rebind` of `drake/scopes.py`: typecheck the new type against
the stored one, reject when the binding `isassigned`, this is an
assignment, and the binding is const — otherwise set `self.assigned`
(the stray attribute; the guard keeps reading the untouched
`isassigned`). -/
def BindingD.rebind (b : BindingD) (type : Typ) (assignment : Bool := true) :
    Except ScErr BindingD := do
  match typecheck b.type type with
  | .error e => .error (ofTCErr e)
  | .ok _ =>
    if b.isassigned && assignment && b.const then .error (.cannotRebindConstant b.name)
    else .ok { b with assignedAttr := some assignment }

/-- The `Binding` of `src/scopes.py` (field really named `assigned`). -/
structure BindingS where
  name : String
  type : Typ
  assigned : Bool
  const : Bool
  deriving Repr

/-- `Binding.rebind` of `src/scopes.py`. -/
def BindingS.rebind (b : BindingS) (type : Typ) (assignment : Bool := true)
    (const : Bool := false) : Except ScErr BindingS := do
  match typecheck b.type type with
  | .error e => .error (ofTCErr e)
  | .ok _ =>
    if b.assigned && assignment && b.const then .error (.cannotRebindConstant b.name)
    else if b.const && !const then .error (.cannotRebindConstant b.name)
    else .ok { b with assigned := assignment, const := const }

/-!
The lowering pass of `drake/analyser.py`.  Its input is the parse tree of
`drake/parser.py` (`Drake.Item` here).  The typed AST nodes it builds
(`ValueNode(type, index)`, `ListNode(type, items)`, ...) are represented
as tagged records with the field values the analyser passes; several of
these classes are absent from the stale `drake/ast.py`, so the analyser is
embedded as the algorithm its own module defines — none of the divergences
relied on below involve a constructed AST node, they all occur inside
`analyser.py` before the construction (`normalise_number`'s `re.match`
call without its string argument, a `TypeError`; `tuplenode`'s shadowing
of the `types` module by its local list, an `AttributeError` at
`types.Tuple`; the `typecheck` calls of `listnode`/`mappingnode`).
-/

/-- AST node classes as named by `drake/analyser.py`. -/
inductive ANodeK where
  | ValueNode | IdentifierNode | RangeNode | ListNode | TupleNode
  | MappingNode | BlockNode | PassNode
  deriving DecidableEq, Repr

/-- A value produced by an analyser handler: a typed AST node (class plus
ordered fields), the key/value tuple returned by `pairnode`, or a field
value (type, integer index, depth, list). -/
inductive AVal where
  | typ (t : Typ)
  | nat (n : Nat)
  | int (z : Int)
  | lnil
  | lcons (hd tl : AVal)
  | pairv (a b : AVal)
  | anode (k : ANodeK) (fields : AVal)
  deriving Repr

def AVal.ofList (xs : List AVal) : AVal := xs.foldr .lcons .lnil

def AVal.mkNode (k : ANodeK) (fields : List AVal) : AVal :=
  .anode k (AVal.ofList fields)

/-- `result.type` — every AST node built by the analyser stores its type
as the first field; anything else (for instance the tuple returned by
`pairnode`) has no `type` attribute (`none`, an `AttributeError`). -/
def AVal.typeOf : AVal → Option Typ
  | .anode _ (.lcons (.typ t) _) => some t
  | _ => none

/-- An entry of the interned `values` table. -/
inductive AValue where
  | vstr (s : String)
  | vbool (b : Bool)
  | vnone
  deriving DecidableEq, Repr

/-- Errors of the lowering pass: `typeMismatch` is `types.TypeMismatch`;
`typeError` is the `TypeError` from `normalise_number`'s
`re.match(pattern)` call that lacks the string argument; `valueErrorPy`
the `ValueError` from `int()` applied to a still-prefixed literal such as
`'0b101'`; `attrErrorPy` the `AttributeError` from `tuplenode`'s
`types.Tuple` after `types` has been shadowed by a local list (and from
`.type` on a non-node); `keyErrorPy` the `KeyError` of the
class-name dispatch in `analyse` when no handler with the lower-cased
class name exists (for instance `rangenode` — the handler is named
`range`); `indexError` from `items[0]` on an empty container;
`nameNotFound` propagates from `Scope.index`. -/
inductive AErr where
  | typeMismatch (expected actual : Typ)
  | typeError
  | valueErrorPy
  | attrErrorPy
  | keyErrorPy
  | indexError
  | nameNotFound (e : NameNotFoundE)
  | unmodeled
  | fuelErr
  deriving Repr

def ofTC : TCErr → AErr
  | .typeMismatch e a => .typeMismatch e a
  | .attrError => .attrErrorPy
  | .fuelErr => .fuelErr

/-- `normalise_string`: strip the quote delimiters (`string[1:-1]`; escape
processing is a to-do in the source). -/
def normalise_string (s : String) : String :=
  String.mk ((s.toList.drop 1).dropLast)

/-- `normalise_number`: after removing underscores, a base-prefixed
literal reaches `str(int(number))` with the prefix still attached — a
`ValueError` — and any other literal reaches
`re.match(rf'...')` without the string argument — a `TypeError`.  The
function can never return normally. -/
def normalise_number (s : String) : Except AErr (List AValue) :=
  let number := String.mk (s.toList.filter (· ≠ '_'))
  if number.startsWith "0b" || number.startsWith "0o" || number.startsWith "0x" then
    .error .valueErrorPy
  else
    .error .typeError

/-- The elements of a `Drake.Item` list chain. -/
def itemElems : Drake.Item → List Drake.Item
  | .lcons a b => a :: itemElems b
  | _ => []

/-- `value in values` / `values.index(value)` / `values.append(...)`. -/
def internLookup (values : List AValue) (v : AValue) : Option Nat :=
  values.findIdx? (· = v)

/-- The loop `for item in items: typecheck(type, item.type)` of
`listnode`. -/
def checkAll (t : Typ) : List AVal → Except AErr Unit
  | [] => .ok ()
  | r :: rs =>
    match r.typeOf with
    | none => .error .attrErrorPy
    | some ti =>
      match typecheck t ti with
      | .error e => .error (ofTC e)
      | .ok _ => checkAll t rs

/-- The loop of `mappingnode`: each item is a `(key, value)` pair, both
sides checked against the first pair's types. -/
def checkPairs (kt vt : Typ) : List AVal → Except AErr Unit
  | [] => .ok ()
  | .pairv k v :: rs =>
    match k.typeOf, v.typeOf with
    | some tk, some tv =>
      match typecheck kt tk with
      | .error e => .error (ofTC e)
      | .ok _ =>
        match typecheck vt tv with
        | .error e => .error (ofTC e)
        | .ok _ => checkPairs kt vt rs
    | _, _ => .error .attrErrorPy
  | _ :: _ => .error .typeError

/-- `analyse` of `drake/analyser.py`, fueled: dispatch on the node's class
name.  `None` is lowered through `passnode`; parse-tree kinds whose
lower-cased class name has no handler (`RangeNode` → `rangenode`, the
handler is named `range`) are the dispatch `KeyError`; handlers outside
the literal/container fragment (control flow, operators, …) exist in the
source but are not part of this embedding (`unmodeled`, never relied
on). -/
def analyseStep (recur : Drake.Item → Scope → List AValue → Except AErr (AVal × List AValue)) :
    Drake.Item → Scope → List AValue → Except AErr (AVal × List AValue) :=
  fun node scope values =>
    match node with
    | .nul => .ok (AVal.mkNode .PassNode [.typ tNone], values)
    | .node .StringNode (.lcons (.text v) .lnil) =>
      let value := AValue.vstr (normalise_string v)
      (match internLookup values value with
       | some i => .ok (AVal.mkNode .ValueNode [.typ tString, .nat i], values)
       | none =>
         -- `values.append(node.value)`: the raw literal, not the
         -- normalised one
         .ok (AVal.mkNode .ValueNode [.typ tString, .nat values.length],
              values ++ [AValue.vstr v]))
    | .node .NumberNode (.lcons (.text v) .lnil) =>
      (match normalise_number v with
       | .error e => .error e
       | .ok _ => .error .typeError)
    | .node .BooleanNode (.lcons (.text v) .lnil) =>
      let value := AValue.vbool (v = "true")
      (match internLookup values value with
       | some i => .ok (AVal.mkNode .ValueNode [.typ tBoolean, .nat i], values)
       | none =>
         .ok (AVal.mkNode .ValueNode [.typ tBoolean, .nat values.length],
              values ++ [value]))
    | .node .NoneNode _ =>
      (match internLookup values AValue.vnone with
       | some i => .ok (AVal.mkNode .ValueNode [.typ tNone, .nat i], values)
       | none =>
         .ok (AVal.mkNode .ValueNode [.typ tNone, .nat values.length],
              values ++ [AValue.vnone]))
    | .node .IdentifierNode (.lcons (.text name) .lnil) =>
      (match Scope.index scope name none with
       | .error e => .error (.nameNotFound e)
       | .ok (i, d) =>
         match Scope.get scope i d with
         | none => .error .indexError
         | some b =>
           .ok (AVal.mkNode .IdentifierNode [.typ b.type, .nat i, .int d], values))
    | .node .ListNode (.lcons items .lnil) => do
      let scope := scope.mkChild []
      let (ritems, values1) ← (itemElems items).foldlM
        (fun (acc : List AVal × List AValue) it => do
          let (r, vs) ← recur it scope acc.2
          pure (acc.1 ++ [r], vs)) ([], values)
      match ritems with
      | [] => .error .indexError
      | r0 :: _ =>
        match r0.typeOf with
        | none => .error .attrErrorPy
        | some t => do
          match checkAll t ritems with
          | .error e => .error e
          | .ok _ =>
            .ok (AVal.mkNode .ListNode [.typ (tList.getitem t), AVal.ofList ritems], values1)
    | .node .TupleNode (.lcons items .lnil) => do
      let scope := scope.mkChild []
      let (ritems, _values1) ← (itemElems items).foldlM
        (fun (acc : List AVal × List AValue) it => do
          let (r, vs) ← recur it scope acc.2
          pure (acc.1 ++ [r], vs)) ([], values)
      -- `types = [item.type for item in items]` shadows the module, so
      -- `types.Tuple[*types]` is an AttributeError on a list
      match ritems.mapM AVal.typeOf with
      | none => .error .attrErrorPy
      | some _ => .error .attrErrorPy
    | .node .MappingNode (.lcons items .lnil) => do
      let scope := scope.mkChild []
      let (ritems, values1) ← (itemElems items).foldlM
        (fun (acc : List AVal × List AValue) it => do
          let (r, vs) ← recur it scope acc.2
          pure (acc.1 ++ [r], vs)) ([], values)
      match ritems with
      | [] => .error .indexError
      | r0 :: _ =>
        match r0 with
        | .pairv k0 v0 =>
          (match k0.typeOf, v0.typeOf with
           | some kt, some vt =>
             (match checkPairs kt vt ritems with
              | .error e => .error e
              | .ok _ =>
                .ok (AVal.mkNode .MappingNode
                      [.typ (tMapping.getitemN [kt, vt]), AVal.ofList ritems], values1))
           | _, _ => .error .attrErrorPy)
        | _ => .error .typeError
    | .node .PairNode (.lcons key (.lcons value .lnil)) => do
      let (rk, values1) ← recur key scope values
      let (rv, values2) ← recur value scope values1
      .ok (AVal.pairv rk rv, values2)
    | .node .RangeNode _ => .error .keyErrorPy
    | _ => .error .unmodeled

def analyseF : Nat → Drake.Item → Scope → List AValue → Except AErr (AVal × List AValue)
  | 0 => fun _ _ _ => .error .fuelErr
  | fuel+1 => analyseStep (analyseF fuel)

end Low

namespace Drake

/-- Shorthand for an `IdentifierNode`. -/
def idN (s : String) : Item := Item.mkNode .IdentifierNode [.text s]

/-- Shorthand for a `BinaryOpNode` (left, operator text, right). -/
def binN (l : Item) (op : String) (r : Item) : Item :=
  Item.mkNode .BinaryOpNode [l, .text op, r]

end Drake

namespace Src

/-- Shorthand for an `IdentifierNode` of `src/parsetree.py`. -/
def sidN (s : String) : SVal := SVal.mkNode .IdentifierNode [.str s]

end Src

open Drake Src Low

/-- C4: `leftrecurse` with operators `('+', '-')` and the `product`
operand (the `addition` rule) folds `a + b - c` into the left-nested tree
`BinaryOp(BinaryOp(a, '+', b), '-', c)`, and `rightrecurse` with the
operator set `('**',)` and the `unary` operand folds `a ** b ** c` into
the right-nested tree `BinaryOp(a, '**', BinaryOp(b, '**', c))`. -/
theorem leftrecurse_rightrecurse_associativity :
    runD 100 .addition (PState.init "a + b - c") =
      .ok ⟨"a + b - c".toList, 9, 0, 9,
           [binN (binN (idN "a") "+" (idN "b")) "-" (idN "c")]⟩
    ∧ rightrecurse 100 [Tok.s "**"] (runD 100 .unary) (PState.init "a ** b ** c") =
      .ok ⟨"a ** b ** c".toList, 11, 0, 11,
           [binN (idN "a") "**" (binN (idN "b") "**" (idN "c"))]⟩ :=
  ⟨rfl, rfl⟩

/-- C8 (counterexample): the claim expects `()` to parse as a zero-element
tuple, but `Parser.atom` on `()` fails: `Parser.tuple`'s `nodelist`
unconditionally invokes the expression rule, which fails at `)`, so every
alternative of `atom` raises `ParseFailed` and the last one (the
identifier rule) propagates — there is no zero-element tuple in this
grammar. -/
theorem atom_empty_parens_fails :
    runD 100 .atom (PState.init "()") = .error (.parseFailed "identifier" (0, 0)) :=
  rfl

/-- C8 (amended): `(x)` parses as the bare inner expression (the grouping
rule returns the expression with no wrapper node), `(x,)` as a tuple node
of size 1, `(x,y)` as a tuple node of size 2, and `()` fails to parse with
`ParseFailed` (the grammar has no zero-element tuple). -/
theorem atom_grouping_tuple_disambiguation :
    runD 100 .atom (PState.init "(x)") =
      .ok ⟨"(x)".toList, 3, 0, 3, [idN "x"]⟩
    ∧ runD 100 .atom (PState.init "(x,)") =
      .ok ⟨"(x,)".toList, 4, 0, 4, [Item.mkNode .TupleNode [Item.ofList [idN "x"]]]⟩
    ∧ runD 100 .atom (PState.init "(x,y)") =
      .ok ⟨"(x,y)".toList, 5, 0, 5, [Item.mkNode .TupleNode [Item.ofList [idN "x", idN "y"]]]⟩
    ∧ runD 100 .atom (PState.init "()") = .error (.parseFailed "identifier" (0, 0)) :=
  ⟨rfl, rfl, rfl, rfl⟩

/-- C3 (counterexample): the claim says the only parse error ever raised
to the top-level caller is `InvalidSyntax`; but `Parser.program` on the
input `?` raises `ParseFailed` (the identifier rule's failure, the last
alternative tried) straight to its caller — `drake/parser.py` never
constructs `InvalidSyntax` at all. -/
theorem program_raises_parsefailed_to_caller :
    runD 100 .program (PState.init "?") = .error (.parseFailed "identifier" (0, 0)) :=
  rfl

/-- C3 (amended): `ParseFailed` is the internal backtracking signal and is
exactly what the `suppress(ParseFailed)` combinator catches — any other
error passes through — but when the top-level `program` rule itself fails,
the `ParseFailed` propagates to the caller; `InvalidSyntax` is never
raised by this parser. -/
theorem parsefailed_caught_by_optional_but_escapes_program :
    (∀ (p : PState) (e : PErr),
      optionalPF (.error e) p = if e.isPF then .ok p else .error e)
    ∧ runD 100 .program (PState.init "?") = .error (.parseFailed "identifier" (0, 0)) :=
  ⟨fun _ _ => rfl, rfl⟩

/-- C9: after `{`, `Parser.brace` parses one expression and sniffs the
colon: `{a:b}` is a single-pair mapping, `{a}` a single-expression block,
and `{a:b, c}` — a pair item followed by a non-pair item — raises
`InvalidSyntax` (the hard, user-facing error of `src/parser.py`; this
parser has no recoverable `ParseFailed` at all) when `pair` requires a
colon and finds the closing brace. -/
theorem brace_mapping_block_disambiguation :
    runT 100 .brace
      [⟨"LBRACE", "\x7b"⟩, ⟨"NAME", "a"⟩, ⟨"COLON", ":"⟩, ⟨"NAME", "b"⟩, ⟨"RBRACE", "\x7d"⟩] =
      .ok (SVal.mkNode .MappingNode
            [SVal.ofList [SVal.mkNode .PairNode [sidN "a", sidN "b"]]], [])
    ∧ runT 100 .brace
      [⟨"LBRACE", "\x7b"⟩, ⟨"NAME", "a"⟩, ⟨"RBRACE", "\x7d"⟩] =
      .ok (SVal.mkNode .BlockNode [SVal.ofList [sidN "a"]], [])
    ∧ runT 100 .brace
      [⟨"LBRACE", "\x7b"⟩, ⟨"NAME", "a"⟩, ⟨"COLON", ":"⟩, ⟨"NAME", "b"⟩,
       ⟨"COMMA", ","⟩, ⟨"NAME", "c"⟩, ⟨"RBRACE", "\x7d"⟩] =
      .error (.hardSyn "RBRACE" "\x7d" "expected COLON, got") :=
  ⟨rfl, rfl, rfl⟩

/-- C6: the claim is matched by `src/scopes.py` but not by
`drake/scopes.py`, whose `Binding.rebind` writes `self.assigned` while its
dataclass field — the one the const guard reads — is `isassigned`.  A
const binding created unassigned by a declaration
(`Binding('x', Number, False, True)`) can therefore be rebound by
assignment twice without `CannotRebindConstant`: `isassigned` never
becomes true.  The guard only fires when the binding was *created*
already assigned.  In the sibling draft `src/scopes.py`, whose field is
really named `assigned`, the second assignment raises as the claim
demands; in both versions the structural `typecheck` runs first. -/
theorem rebind_assigned_attribute_typo :
    BindingD.rebind ⟨"x", tNumber, false, true, none⟩ tNumber true =
      .ok ⟨"x", tNumber, false, true, some true⟩
    ∧ BindingD.rebind ⟨"x", tNumber, false, true, some true⟩ tNumber true =
      .ok ⟨"x", tNumber, false, true, some true⟩
    ∧ BindingD.rebind ⟨"x", tNumber, true, true, none⟩ tNumber true =
      .error (.cannotRebindConstant "x")
    ∧ BindingS.rebind ⟨"x", tNumber, false, true⟩ tNumber true true =
      .ok ⟨"x", tNumber, true, true⟩
    ∧ BindingS.rebind ⟨"x", tNumber, true, true⟩ tNumber true true =
      .error (.cannotRebindConstant "x")
    ∧ BindingD.rebind ⟨"x", tNumber, false, true, none⟩ tString true =
      .error (.typeMismatch tNumber tString) :=
  ⟨rfl, rfl, rfl, rfl, rfl, rfl⟩

namespace Low

/-- Parse-tree literal and container shorthands (the node shapes
`drake/parser.py` produces and `drake/analyser.py` consumes). -/
def numN (v : String) : Drake.Item := Drake.Item.mkNode .NumberNode [.text v]

def strN (v : String) : Drake.Item := Drake.Item.mkNode .StringNode [.text v]

def boolN (v : String) : Drake.Item := Drake.Item.mkNode .BooleanNode [.text v]

def listN (xs : List Drake.Item) : Drake.Item :=
  Drake.Item.mkNode .ListNode [Drake.Item.ofList xs]

def tupN (xs : List Drake.Item) : Drake.Item :=
  Drake.Item.mkNode .TupleNode [Drake.Item.ofList xs]

def pairN (k v : Drake.Item) : Drake.Item := Drake.Item.mkNode .PairNode [k, v]

def mapN (xs : List Drake.Item) : Drake.Item :=
  Drake.Item.mkNode .MappingNode [Drake.Item.ofList xs]

/-- An empty user scope over the empty builtins root. -/
def sc0 : Scope := Scope.child [] (Scope.root [])

end Low

/-- C7 (counterexample): the claim's own instance — lowering the list
literal `[0, "x"]` — does not raise `TypeMismatch`: the first element is a
number literal, and `normalise_number` crashes with a `TypeError`
(`re.match` is called without the string argument) before any element
type check runs. -/
theorem lowering_list_number_string_typeerror :
    analyseF 50 (listN [numN "0", strN "\"x\""]) sc0 [] = .error .typeError :=
  rfl

/-- C7 (amended): for list and map literals the lowering analyses the
children in a fresh child scope, takes the first element's (first pair's)
inferred type and checks every element against it, raising `TypeMismatch`
for heterogeneous lists/maps whose elements lower successfully; a
homogeneous list lowers to a `List[elem]`-typed node.  Tuple literals are
not checked against the first element: their handler collects all element
types and then crashes with an `AttributeError` (`types.Tuple` after the
local list shadows the `types` module).  Number literals cannot be
lowered at all (`normalise_number` raises `TypeError`), so `[0, "x"]`
raises `TypeError` rather than `TypeMismatch`. -/
theorem lowering_container_homogeneity :
    analyseF 50 (listN [strN "\"x\"", boolN "true"]) sc0 [] =
      .error (.typeMismatch tString tBoolean)
    ∧ analyseF 50 (mapN [pairN (strN "\"a\"") (boolN "true"),
                         pairN (strN "\"b\"") (strN "\"x\"")]) sc0 [] =
      .error (.typeMismatch tBoolean tString)
    ∧ analyseF 50 (tupN [strN "\"x\"", boolN "true"]) sc0 [] = .error .attrErrorPy
    ∧ analyseF 50 (listN [numN "0", strN "\"x\""]) sc0 [] = .error .typeError
    ∧ analyseF 50 (listN [strN "\"x\"", strN "\"y\""]) sc0 [] =
      .ok (AVal.mkNode .ListNode
            [.typ (tList.getitem tString),
             AVal.ofList [AVal.mkNode .ValueNode [.typ tString, .nat 0],
                          AVal.mkNode .ValueNode [.typ tString, .nat 1]]],
           [AValue.vstr "\"x\"", AValue.vstr "\"y\""]) :=
  ⟨rfl, rfl, rfl, rfl, rfl⟩

/-- C10: dataclass equality of `Type` compares only `name` (its `params`,
`mutable` and `namespace` fields are `compare=False`), so
`List[Number] == List[String]` and `List[Number] == List`, even though the
structural compatibility check `typecheck` distinguishes the parameters
and rejects `List[Number]` against `List[String]` with
`TypeMismatch(Number, String)`. -/
theorem type_equality_compares_name_only :
    (∀ t1 t2 : Typ, typeEq t1 t2 = (t1.name == t2.name))
    ∧ typeEq (tList.getitem tNumber) (tList.getitem tString) = true
    ∧ typeEq (tList.getitem tNumber) tList = true
    ∧ typeEq tNumber tString = false
    ∧ typecheck (tList.getitem tNumber) (tList.getitem tString) =
      .error (.typeMismatch tNumber tString) :=
  ⟨fun _ _ => rfl, rfl, rfl, rfl, rfl⟩

/-- Alternatives that fail with the backtracking signal are skipped by the
ordered-choice loop, which merely updates the remembered exception. -/
theorem tryEach_skip_failed (s : Drake.PState) :
    ∀ (pre rest : List (Drake.PState → Drake.PRes)) (acc : Option Drake.PErr),
    (∀ a ∈ pre, ∃ e, a s = .error e ∧ e.isPF = true) →
    ∃ acc2, tryEach s (pre ++ rest) acc = tryEach s rest acc2 := by
  intro pre
  induction pre with
  | nil => exact fun rest acc _ => ⟨acc, rfl⟩
  | cons f pre2 ih =>
    intro rest acc hall
    obtain ⟨e, he, hpf⟩ := hall f (List.mem_cons_self f pre2)
    have h2 : ∀ a ∈ pre2, ∃ e, a s = .error e ∧ e.isPF = true :=
      fun a ha => hall a (List.mem_cons_of_mem f ha)
    obtain ⟨acc2, hrec⟩ := ih rest (some e) h2
    refine ⟨acc2, ?_⟩
    simp only [List.cons_append, tryEach, he, hpf, if_true]
    exact hrec

/-- C1: the ordered-choice loop of `Parser.expression` (shared by
`keyword`, `atom`, `literal`) tries each alternative rule against the same
starting state: when the alternatives before `b` all fail with
`ParseFailed` and `b` succeeds, the result is exactly `b s` — the state
`b` alone would have produced from `s`, with no trace of the failed
attempts (which never touched `s`) — and when every alternative fails
with `ParseFailed`, the loop re-raises the last alternative's failure. -/
theorem choice_first_success_last_failure :
    (∀ (s : Drake.PState) (pre post : List (Drake.PState → Drake.PRes))
       (b : Drake.PState → Drake.PRes) (r : Drake.PState),
      (∀ a ∈ pre, ∃ e, a s = .error e ∧ e.isPF = true) →
      b s = .ok r →
      tryEach0 s (pre ++ b :: post) = b s)
    ∧ (∀ (s : Drake.PState) (alts : List (Drake.PState → Drake.PRes))
         (b : Drake.PState → Drake.PRes) (e : Drake.PErr),
      (∀ a ∈ alts, ∃ e2, a s = .error e2 ∧ e2.isPF = true) →
      b s = .error e → e.isPF = true →
      tryEach0 s (alts ++ [b]) = .error e) := by
  constructor
  · intro s pre post b r hall hb
    obtain ⟨acc2, hrec⟩ := tryEach_skip_failed s pre (b :: post) none hall
    unfold tryEach0
    rw [hrec]
    simp only [tryEach, hb]
  · intro s alts b e hall hb hpf
    obtain ⟨acc2, hrec⟩ := tryEach_skip_failed s alts [b] none hall
    unfold tryEach0
    rw [hrec]
    simp only [tryEach, hb, hpf, if_true]

/-- Witness for C1: over the parser state for the source `a`, the
`number` rule fails with `ParseFailed` and the `identifier` rule succeeds,
so the ordered choice returns exactly the identifier rule's result; over
the source `?` both `number` and `boolean` fail, and the choice re-raises
the `boolean` rule's (the last alternative's) failure. -/
theorem choice_first_success_last_failure_witness :
    tryEach0 (PState.init "a") [runD 50 .number, runD 50 .identifier] =
      runD 50 .identifier (PState.init "a")
    ∧ tryEach0 (PState.init "?") [runD 50 .number, runD 50 .boolean] =
      .error (.parseFailed (reprS "false") (0, 0)) := by
  constructor
  · exact choice_first_success_last_failure.1 (PState.init "a")
      [runD 50 .number] [] (runD 50 .identifier)
      ⟨"a".toList, 1, 0, 1, [idN "a"]⟩
      (by
        intro a ha
        simp only [List.mem_singleton] at ha
        subst ha
        exact ⟨.parseFailed "decimal" (0, 0), rfl, rfl⟩)
      rfl
  · exact choice_first_success_last_failure.2 (PState.init "?")
      [runD 50 .number] (runD 50 .boolean) (.parseFailed (reprS "false") (0, 0))
      (by
        intro a ha
        simp only [List.mem_singleton] at ha
        subst ha
        exact ⟨.parseFailed "decimal" (0, 0), rfl, rfl⟩)
      rfl rfl

namespace Low

/-- The user frames of a scope chain, innermost first (the builtins root
is not a user frame). -/
def Scope.frames : Scope → List (List Binding)
  | .root _ => []
  | .child bs p => bs :: Scope.frames p

/-- Structural induction for `Scope` (the mutual data model blocks the
default eliminator). -/
theorem Scope.indOn {motive : Scope → Prop}
    (root : ∀ bs, motive (.root bs))
    (child : ∀ bs p, motive p → motive (.child bs p)) :
    ∀ sc, motive sc := fun sc =>
  match sc with
  | .root bs => root bs
  | .child bs p => child bs p (Scope.indOn root child p)

/-- A name absent from every user frame and from the builtins root makes
`index(name)` raise `NameNotFound`; the exception's `local` is stamped
with the caller's argument at each level on the way out (`None` for the
default call on a user scope, `True` when the builtins root itself was the
receiver). -/
theorem index_not_found (name : String) :
    ∀ (sc : Scope),
    (∀ fr ∈ sc.frames, findBinding fr name = none) →
    findBinding sc.rootBindings name = none →
    Scope.index sc name none =
      .error ⟨name, match sc with | .root _ => some true | .child _ _ => none⟩ := by
  intro sc
  induction sc using Scope.indOn with
  | root bs =>
    intro _ hroot
    simp only [Scope.index, Scope.rootBindings] at *
    rw [hroot]
  | child bs p ih =>
    intro hall hroot
    have h0 : findBinding bs name = none :=
      hall bs (by simp [Scope.frames])
    have hp : ∀ fr ∈ p.frames, findBinding fr name = none := by
      intro fr hfr
      exact hall fr (by simp [Scope.frames, hfr])
    have hroot2 : findBinding p.rootBindings name = none := hroot
    have := ih hp hroot2
    simp only [Scope.index, h0, this]
    cases p <;> rfl

/-- A name found after walking up `N` parent links (having been absent
from the frames below) resolves to depth `N`. -/
theorem index_depth (name : String) :
    ∀ (sc : Scope), ∀ (N : ℕ) (frN : List Binding) (i : ℕ),
    sc.frames.get? N = some frN →
    (∀ j frj, j < N → sc.frames.get? j = some frj → findBinding frj name = none) →
    findBinding frN name = some i →
    Scope.index sc name none = .ok (i, (N : ℤ)) := by
  intro sc
  induction sc using Scope.indOn with
  | root _ =>
    intro N frN i hget
    simp [Scope.frames] at hget
  | child bs p ih =>
    intro N frN i hget hbelow hfound
    cases N with
    | zero =>
      simp only [Scope.frames, List.get?] at hget
      cases hget
      simp [Scope.index, hfound]
    | succ N =>
      have h0 : findBinding bs name = none := by
        have := hbelow 0 bs (Nat.succ_pos N) (by simp [Scope.frames])
        exact this
      have hget2 : p.frames.get? N = some frN := hget
      have hbelow2 : ∀ j frj, j < N → p.frames.get? j = some frj →
          findBinding frj name = none := by
        intro j frj hj hg
        exact hbelow (j + 1) frj (Nat.succ_lt_succ hj) hg
      have hrec := ih N frN i hget2 hbelow2 hfound
      have hne : (N : ℤ) ≠ -1 := by omega
      simp [Scope.index, h0, hrec, hne]

/-- A name absent from every user frame but present in the builtins root
resolves to the reserved depth `-1`. -/
theorem index_builtins (name : String) :
    ∀ (sc : Scope), ∀ (i : ℕ),
    (∀ fr ∈ sc.frames, findBinding fr name = none) →
    findBinding sc.rootBindings name = some i →
    Scope.index sc name none = .ok (i, -1) := by
  intro sc
  induction sc using Scope.indOn with
  | root bs =>
    intro i _ hroot
    simp only [Scope.rootBindings] at hroot
    simp [Scope.index, hroot]
  | child bs p ih =>
    intro i hall hroot
    have h0 : findBinding bs name = none := hall bs (by simp [Scope.frames])
    have hp : ∀ fr ∈ p.frames, findBinding fr name = none := by
      intro fr hfr
      exact hall fr (by simp [Scope.frames, hfr])
    have hrec := ih i hp hroot
    simp [Scope.index, h0, hrec]

end Low

/-- C5: `Scope.index(name)` returns `(slotIndex, depth)` with depth `0`
for a binding in the current scope and depth `N` after walking `N` parent
links (first clause, `N = 0` included), depth `-1` for a binding found
only in the builtins root (second clause), raises `NameNotFound` when no
scope in the chain has the name (third clause), and, under the
`local=False` restriction used when resolving `nonlocal` targets, skips
the innermost scope entirely and resolves against the parent chain
whether or not the innermost frame has the name (last two clauses). -/
theorem scope_index_spec :
    (∀ (sc : Scope) (name : String) (N : ℕ) (frN : List Binding) (i : ℕ),
      sc.frames.get? N = some frN →
      (∀ j frj, j < N → sc.frames.get? j = some frj → findBinding frj name = none) →
      findBinding frN name = some i →
      Scope.index sc name none = .ok (i, (N : ℤ)))
    ∧ (∀ (sc : Scope) (name : String) (i : ℕ),
      (∀ fr ∈ sc.frames, findBinding fr name = none) →
      findBinding sc.rootBindings name = some i →
      Scope.index sc name none = .ok (i, -1))
    ∧ (∀ (bs : List Binding) (p : Scope) (name : String),
      (∀ fr ∈ (Scope.child bs p).frames, findBinding fr name = none) →
      findBinding (Scope.child bs p).rootBindings name = none →
      Scope.index (Scope.child bs p) name none = .error ⟨name, none⟩)
    ∧ (∀ (bs : List Binding) (p : Scope) (name : String) (i : ℕ) (d : ℤ),
      Scope.index p name none = .ok (i, d) →
      Scope.index (Scope.child bs p) name (some false) =
        .ok (i, if d ≠ -1 then d + 1 else d))
    ∧ (∀ (bs : List Binding) (p : Scope) (name : String) (e : NameNotFoundE),
      Scope.index p name none = .error e →
      Scope.index (Scope.child bs p) name (some false) =
        .error { e with localArg := some false }) := by
  refine ⟨fun sc name => index_depth name sc,
          fun sc name => index_builtins name sc,
          fun bs p name hall hroot => index_not_found name (Scope.child bs p) hall hroot,
          ?_, ?_⟩
  · intro bs p name i d h
    simp [Scope.index, h]
  · intro bs p name e h
    simp [Scope.index, h]

/-- Witness for C5 on a concrete chain `child [x] (child [y] (root [p]))`:
`y` resolves at depth 1, `p` at the builtins depth `-1`, a missing `z`
raises `NameNotFound`, and with `local=False` a shadowed `x` resolves to
the parent's binding at depth 1 (the innermost frame is skipped) while a
missing name's `NameNotFound` is stamped `local=False`. -/
theorem scope_index_spec_witness :
    Scope.index (Scope.child [Binding.mk "x" tNumber true false]
        (Scope.child [Binding.mk "y" tNumber true false]
          (Scope.root [Binding.mk "p" tNumber true false]))) "y" none = .ok (0, 1)
    ∧ Scope.index (Scope.child [Binding.mk "x" tNumber true false]
        (Scope.child [Binding.mk "y" tNumber true false]
          (Scope.root [Binding.mk "p" tNumber true false]))) "p" none = .ok (0, -1)
    ∧ Scope.index (Scope.child [Binding.mk "x" tNumber true false]
        (Scope.child [Binding.mk "y" tNumber true false]
          (Scope.root [Binding.mk "p" tNumber true false]))) "z" none =
        .error ⟨"z", none⟩
    ∧ Scope.index (Scope.child [Binding.mk "x" tNumber true false]
        (Scope.child [Binding.mk "x" tString true false] (Scope.root []))) "x"
        (some false) = .ok (0, 1)
    ∧ Scope.index (Scope.child [Binding.mk "x" tNumber true false]
        (Scope.root [])) "z" (some false) = .error ⟨"z", some false⟩ := by
  refine ⟨?_, ?_, ?_, ?_, ?_⟩
  · exact scope_index_spec.1 _ "y" 1 [Binding.mk "y" tNumber true false] 0 rfl
      (by
        intro j frj hj hg
        have hj0 : j = 0 := by omega
        subst hj0
        simp only [Scope.frames, List.get?] at hg
        cases hg
        rfl)
      rfl
  · exact scope_index_spec.2.1 _ "p" 0
      (by
        intro fr hfr
        simp only [Scope.frames, List.mem_cons, List.not_mem_nil, or_false] at hfr
        rcases hfr with h | h <;> (subst h; rfl))
      rfl
  · exact scope_index_spec.2.2.1 _ _ "z"
      (by
        intro fr hfr
        simp only [Scope.frames, List.mem_cons, List.not_mem_nil, or_false] at hfr
        rcases hfr with h | h <;> (subst h; rfl))
      rfl
  · have h := scope_index_spec.2.2.2.1 [Binding.mk "x" tNumber true false]
      (Scope.child [Binding.mk "x" tString true false] (Scope.root [])) "x" 0 0 rfl
    simpa using h
  · have h := scope_index_spec.2.2.2.2 [Binding.mk "x" tNumber true false]
      (Scope.root []) "z" ⟨"z", some true⟩ rfl
    simpa using h

namespace Src

/-- The COMMA token. -/
def commaTok : Token := ⟨"COMMA", ","⟩

/-- The NEWLINE token — `src/lexer.py` emits a single NEWLINE token for
any run of one or more line breaks (one `Token('NEWLINE', 'nl', ...)` per
BLANK match containing newlines), so one separator token stands for "one
or more newlines" in the source text. -/
def newlineTok : Token := ⟨"NEWLINE", "nl"⟩

/-- `ts` interleaved with a separator: `t1 sep t2 sep ... tn`. -/
def joinSep (sep : Token) : List Token → List Token
  | [] => []
  | [t] => [t]
  | t :: rest => t :: sep :: joinSep sep rest

/-- `sep t1 sep t2 ... sep tn` — the shape `_separateditems` consumes
after the first item. -/
def sepChain (sep : Token) (ts : List Token) : List Token :=
  ts.foldr (fun t acc => sep :: t :: acc) []

theorem joinSep_cons (sep t : Token) (ts : List Token) :
    joinSep sep (t :: ts) = t :: sepChain sep ts := by
  induction ts generalizing t with
  | nil => rfl
  | cons u us ih =>
    simp only [joinSep, ih u, sepChain, List.foldr]

theorem peekT_cons (t : Token) (rest : List Token) : peekT (t :: rest) = t := rfl

theorem nextT_next_not_newline (t x : Token) (more : List Token)
    (hx : x.kind ≠ "NEWLINE") : nextT (t :: x :: more) = (t, x :: more) := by
  simp [nextT, hx]

theorem nextT_end (t : Token) : nextT [t] = (t, []) := by
  simp [nextT]

theorem maybeK_yes (k : String) (s : TState) (h : (peekT s).kind = k) :
    maybeK [k] s = some (nextT s) := by
  simp [maybeK, h]

theorem maybeK_no (k : String) (s : TState) (h : (peekT s).kind ≠ k) :
    maybeK [k] s = none := by
  simp [maybeK, h]

theorem peekK_yes (k : String) (s : TState) (h : (peekT s).kind = k) :
    peekK [k] s = some (peekT s) := by
  simp [peekK, h]

theorem peekK_no (k : String) (s : TState) (h : (peekT s).kind ≠ k) :
    peekK [k] s = none := by
  simp [peekK, h]

end Src

namespace Src

theorem nextT_noskip (t : Token) (rest : List Token)
    (h1 : t.kind ≠ "LBRACKET") (h2 : t.kind ≠ "LSQUARE")
    (h3 : t.kind ≠ "LBRACE") (h4 : t.kind ≠ "COMMA") :
    nextT (t :: rest) = (t, rest) := by
  simp [nextT, h1, h2, h3, h4]

/-- `_separateditems` with one fixed separator kind collects the
remaining items up to the lookahead, with or without one trailing
separator. -/
theorem separateditems_collect
    (f : SRule) (g : Token → SVal) (itemKind lk sepK : String) (sepT lkt : Token)
    (hf : ∀ t r2, t.kind = itemKind → f (t :: r2) = .ok (g t, r2))
    (hik1 : itemKind ≠ "NEWLINE") (hik2 : itemKind ≠ lk)
    (hlk1 : lk ≠ sepK) (hlk2 : lk ≠ "NEWLINE")
    (hlk3 : lk ≠ "LBRACKET") (hlk4 : lk ≠ "LSQUARE")
    (hlk5 : lk ≠ "LBRACE") (hlk6 : lk ≠ "COMMA")
    (hsep : sepT.kind = sepK) (hlkt : lkt.kind = lk) :
    ∀ (ts : List Token) (fuel : ℕ) (acc : List SVal) (rest : List Token),
    (∀ t ∈ ts, t.kind = itemKind) → ts.length + 1 ≤ fuel →
    (separateditems fuel f sepK lk acc (sepChain sepT ts ++ lkt :: rest) =
        .ok (acc ++ ts.map g, rest)
      ∧ separateditems fuel f sepK lk acc (sepChain sepT ts ++ sepT :: lkt :: rest) =
        .ok (acc ++ ts.map g, rest)) := by
  intro ts
  induction ts with
  | nil =>
    intro fuel acc rest _ hfuel
    obtain ⟨fl, rfl⟩ : ∃ fl, fuel = fl + 1 := ⟨fuel - 1, by omega⟩
    have hpk : (peekT (lkt :: rest)).kind ≠ sepK := by
      rw [peekT_cons, hlkt]; exact hlk1
    have hpk2 : (peekT (lkt :: rest)).kind = lk := by rw [peekT_cons, hlkt]
    constructor
    · simp only [sepChain, List.foldr, List.nil_append, List.map_nil, List.append_nil]
      simp only [separateditems, maybeK_no sepK _ hpk, maybeK_yes lk _ hpk2,
        nextT_noskip lkt rest (hlkt ▸ hlk3) (hlkt ▸ hlk4) (hlkt ▸ hlk5) (hlkt ▸ hlk6)]
    · simp only [sepChain, List.foldr, List.nil_append, List.map_nil, List.append_nil]
      have hsk : (peekT (sepT :: lkt :: rest)).kind = sepK := by rw [peekT_cons, hsep]
      simp only [separateditems, maybeK_yes sepK _ hsk,
        nextT_next_not_newline sepT lkt rest (hlkt ▸ hlk2),
        maybeK_yes lk _ hpk2,
        nextT_noskip lkt rest (hlkt ▸ hlk3) (hlkt ▸ hlk4) (hlkt ▸ hlk5) (hlkt ▸ hlk6)]
  | cons t ts2 ih =>
    intro fuel acc rest hall hfuel
    obtain ⟨fl, rfl⟩ : ∃ fl, fuel = fl + 1 := ⟨fuel - 1, by omega⟩
    have ht : t.kind = itemKind := hall t (List.mem_cons_self t ts2)
    have hall2 : ∀ u ∈ ts2, u.kind = itemKind :=
      fun u hu => hall u (List.mem_cons_of_mem t hu)
    have hfl : ts2.length + 1 ≤ fl := by
      simp only [List.length_cons] at hfuel; omega
    have hchain : ∀ tail : List Token,
        sepChain sepT (t :: ts2) ++ tail = sepT :: t :: (sepChain sepT ts2 ++ tail) := by
      intro tail; simp [sepChain, List.foldr]
    have step : ∀ tail : List Token,
        separateditems (fl + 1) f sepK lk acc (sepChain sepT (t :: ts2) ++ tail) =
          separateditems fl f sepK lk (acc ++ [g t]) (sepChain sepT ts2 ++ tail) := by
      intro tail
      rw [hchain tail]
      have hsk : (peekT (sepT :: t :: (sepChain sepT ts2 ++ tail))).kind = sepK := by
        rw [peekT_cons, hsep]
      have htk : (peekT (t :: (sepChain sepT ts2 ++ tail))).kind ≠ lk := by
        rw [peekT_cons, ht]; exact hik2
      simp only [separateditems, maybeK_yes sepK _ hsk,
        nextT_next_not_newline sepT t _ (ht ▸ hik1),
        maybeK_no lk _ htk, hf t _ ht]
      rfl
    constructor
    · rw [step (lkt :: rest)]
      have := (ih fl (acc ++ [g t]) rest hall2 hfl).1
      rw [this]
      simp
    · rw [step (sepT :: lkt :: rest)]
      have := (ih fl (acc ++ [g t]) rest hall2 hfl).2
      rw [this]
      simp

end Src

namespace Src

/-- `_itemlist` after the first item, comma-separated (with and without a
trailing comma). -/
theorem itemlistCont_comma
    (f : SRule) (g : Token → SVal) (itemKind lk : String) (lkt : Token)
    (hf : ∀ t r2, t.kind = itemKind → f (t :: r2) = .ok (g t, r2))
    (hik1 : itemKind ≠ "NEWLINE") (hik2 : itemKind ≠ lk)
    (hlk2 : lk ≠ "NEWLINE")
    (hlk3 : lk ≠ "LBRACKET") (hlk4 : lk ≠ "LSQUARE")
    (hlk5 : lk ≠ "LBRACE") (hlk6 : lk ≠ "COMMA")
    (hlkt : lkt.kind = lk) :
    ∀ (ts2 : List Token) (fuel : ℕ) (item : SVal) (rest : List Token),
    (∀ t ∈ ts2, t.kind = itemKind) → ts2.length + 1 ≤ fuel →
    (itemlistCont fuel item f lk true (sepChain commaTok ts2 ++ lkt :: rest) =
        .ok (SVal.ofList (item :: ts2.map g), rest)
      ∧ itemlistCont fuel item f lk true
          (sepChain commaTok ts2 ++ commaTok :: lkt :: rest) =
        .ok (SVal.ofList (item :: ts2.map g), rest)) := by
  have hcomma : commaTok.kind = "COMMA" := rfl
  intro ts2 fuel item rest hall hfuel
  have hsep := separateditems_collect f g itemKind lk "COMMA" commaTok lkt hf
    hik1 hik2 hlk6 hlk2 hlk3 hlk4 hlk5 hlk6 hcomma hlkt ts2 fuel [item] rest hall hfuel
  constructor
  · cases ts2 with
    | nil =>
      simp only [sepChain, List.foldr, List.nil_append, List.map_nil]
      have hpk2 : (peekT (lkt :: rest)).kind = lk := by rw [peekT_cons, hlkt]
      simp only [itemlistCont, maybeK_yes lk _ hpk2,
        nextT_noskip lkt rest (hlkt ▸ hlk3) (hlkt ▸ hlk4) (hlkt ▸ hlk5) (hlkt ▸ hlk6),
        if_true]
    | cons u us =>
      have hchain : sepChain commaTok (u :: us) ++ lkt :: rest =
          commaTok :: u :: (sepChain commaTok us ++ lkt :: rest) := by
        simp [sepChain, List.foldr]
      rw [hchain] at hsep ⊢
      have h1 : (peekT (commaTok :: u :: (sepChain commaTok us ++ lkt :: rest))).kind ≠ lk := by
        rw [peekT_cons, hcomma]; exact fun h => hlk6 h.symm
      have h2 : (peekT (commaTok :: u :: (sepChain commaTok us ++ lkt :: rest))).kind
          ≠ "NEWLINE" := by rw [peekT_cons, hcomma]; decide
      have h3 : (peekT (commaTok :: u :: (sepChain commaTok us ++ lkt :: rest))).kind
          = "COMMA" := by rw [peekT_cons, hcomma]
      simp only [itemlistCont, maybeK_no lk _ h1, peekK_no "NEWLINE" _ h2,
        peekK_yes "COMMA" _ h3]
      rw [hsep.1]
      rfl
  · cases ts2 with
    | nil =>
      simp only [sepChain, List.foldr, List.nil_append, List.map_nil] at hsep ⊢
      have h1 : (peekT (commaTok :: lkt :: rest)).kind ≠ lk := by
        rw [peekT_cons, hcomma]; exact fun h => hlk6 h.symm
      have h2 : (peekT (commaTok :: lkt :: rest)).kind ≠ "NEWLINE" := by
        rw [peekT_cons, hcomma]; decide
      have h3 : (peekT (commaTok :: lkt :: rest)).kind = "COMMA" := by
        rw [peekT_cons, hcomma]
      simp only [itemlistCont, maybeK_no lk _ h1, peekK_no "NEWLINE" _ h2,
        peekK_yes "COMMA" _ h3]
      rw [hsep.2]
      rfl
    | cons u us =>
      have hchain : sepChain commaTok (u :: us) ++ commaTok :: lkt :: rest =
          commaTok :: u :: (sepChain commaTok us ++ commaTok :: lkt :: rest) := by
        simp [sepChain, List.foldr]
      rw [hchain] at hsep ⊢
      have h1 : (peekT (commaTok :: u :: (sepChain commaTok us ++ commaTok :: lkt :: rest))).kind
          ≠ lk := by rw [peekT_cons, hcomma]; exact fun h => hlk6 h.symm
      have h2 : (peekT (commaTok :: u :: (sepChain commaTok us ++ commaTok :: lkt :: rest))).kind
          ≠ "NEWLINE" := by rw [peekT_cons, hcomma]; decide
      have h3 : (peekT (commaTok :: u :: (sepChain commaTok us ++ commaTok :: lkt :: rest))).kind
          = "COMMA" := by rw [peekT_cons, hcomma]
      simp only [itemlistCont, maybeK_no lk _ h1, peekK_no "NEWLINE" _ h2,
        peekK_yes "COMMA" _ h3]
      rw [hsep.2]
      rfl

/-- `_itemlist` after the first item, newline-separated. -/
theorem itemlistCont_newline
    (f : SRule) (g : Token → SVal) (itemKind lk : String) (lkt : Token)
    (hf : ∀ t r2, t.kind = itemKind → f (t :: r2) = .ok (g t, r2))
    (hik1 : itemKind ≠ "NEWLINE") (hik2 : itemKind ≠ lk)
    (hlk2 : lk ≠ "NEWLINE")
    (hlk3 : lk ≠ "LBRACKET") (hlk4 : lk ≠ "LSQUARE")
    (hlk5 : lk ≠ "LBRACE") (hlk6 : lk ≠ "COMMA")
    (hlkt : lkt.kind = lk) :
    ∀ (ts2 : List Token) (fuel : ℕ) (item : SVal) (rest : List Token),
    (∀ t ∈ ts2, t.kind = itemKind) → ts2.length + 1 ≤ fuel →
    itemlistCont fuel item f lk true (sepChain newlineTok ts2 ++ lkt :: rest) =
      .ok (SVal.ofList (item :: ts2.map g), rest) := by
  have hnl : newlineTok.kind = "NEWLINE" := rfl
  intro ts2 fuel item rest hall hfuel
  have hsep := separateditems_collect f g itemKind lk "NEWLINE" newlineTok lkt hf
    hik1 hik2 hlk2 hlk2 hlk3 hlk4 hlk5 hlk6 hnl hlkt ts2 fuel [item] rest hall hfuel
  cases ts2 with
  | nil =>
    simp only [sepChain, List.foldr, List.nil_append, List.map_nil]
    have hpk2 : (peekT (lkt :: rest)).kind = lk := by rw [peekT_cons, hlkt]
    simp only [itemlistCont, maybeK_yes lk _ hpk2,
      nextT_noskip lkt rest (hlkt ▸ hlk3) (hlkt ▸ hlk4) (hlkt ▸ hlk5) (hlkt ▸ hlk6),
      if_true]
  | cons u us =>
    have hchain : sepChain newlineTok (u :: us) ++ lkt :: rest =
        newlineTok :: u :: (sepChain newlineTok us ++ lkt :: rest) := by
      simp [sepChain, List.foldr]
    rw [hchain] at hsep ⊢
    have h1 : (peekT (newlineTok :: u :: (sepChain newlineTok us ++ lkt :: rest))).kind
        ≠ lk := by rw [peekT_cons, hnl]; exact fun h => hlk2 h.symm
    have h2 : (peekT (newlineTok :: u :: (sepChain newlineTok us ++ lkt :: rest))).kind
        = "NEWLINE" := by rw [peekT_cons, hnl]
    simp only [itemlistCont, maybeK_no lk _ h1, peekK_yes "NEWLINE" _ h2]
    rw [hsep.1]
    rfl

end Src

/-- C2: for every item rule that consumes exactly one designated item
token (and for every such token kind and terminating lookahead kind
distinct from the separators), `itemlist` on `N ≥ 1` items joined by
COMMA tokens — with or without a single trailing comma — returns the
`N`-element list of the items' results; joining by NEWLINE tokens (the
lexer emits one NEWLINE token per run of one or more line breaks) returns
the same `N`-element list; and when the lookahead appears immediately,
`itemlist` returns the zero-element list without invoking the item rule —
the result holds for *every* item function `f`, which is never applied. -/
theorem itemlist_separator_laws :
    (∀ (f : SRule) (g : Token → SVal) (itemKind lk : String) (lkt : Token)
       (ts rest : List Token) (fuel : ℕ),
      (∀ t r2, t.kind = itemKind → f (t :: r2) = .ok (g t, r2)) →
      itemKind ≠ "COMMA" → itemKind ≠ "NEWLINE" → itemKind ≠ lk →
      lk ≠ "COMMA" → lk ≠ "NEWLINE" →
      lk ≠ "LBRACKET" → lk ≠ "LSQUARE" → lk ≠ "LBRACE" →
      lkt.kind = lk → ts ≠ [] → (∀ t ∈ ts, t.kind = itemKind) →
      ts.length + 1 ≤ fuel →
      (itemlist fuel f lk true (joinSep commaTok ts ++ lkt :: rest) =
          .ok (SVal.ofList (ts.map g), rest)
        ∧ itemlist fuel f lk true (joinSep commaTok ts ++ commaTok :: lkt :: rest) =
          .ok (SVal.ofList (ts.map g), rest)
        ∧ itemlist fuel f lk true (joinSep newlineTok ts ++ lkt :: rest) =
          .ok (SVal.ofList (ts.map g), rest)))
    ∧ (∀ (f : SRule) (lk : String) (lkt : Token) (rest : List Token) (fuel : ℕ),
      lk ≠ "LBRACKET" → lk ≠ "LSQUARE" → lk ≠ "LBRACE" → lk ≠ "COMMA" →
      lkt.kind = lk →
      itemlist fuel f lk true (lkt :: rest) = .ok (SVal.ofList [], rest)) := by
  constructor
  · intro f g itemKind lk lkt ts rest fuel hf hik0 hik1 hik2 hlk6 hlk2 hlk3 hlk4 hlk5
      hlkt hne hall hfuel
    cases ts with
    | nil => exact absurd rfl hne
    | cons t1 ts2 =>
      have ht1 : t1.kind = itemKind := hall t1 (List.mem_cons_self t1 ts2)
      have hall2 : ∀ u ∈ ts2, u.kind = itemKind :=
        fun u hu => hall u (List.mem_cons_of_mem t1 hu)
      have hfl : ts2.length + 1 ≤ fuel := by
        simp only [List.length_cons] at hfuel; omega
      have hstep : ∀ (sep : Token) (tail : List Token),
          itemlist fuel f lk true (joinSep sep (t1 :: ts2) ++ tail) =
            itemlistCont fuel (g t1) f lk true (sepChain sep ts2 ++ tail) := by
        intro sep tail
        rw [joinSep_cons, List.cons_append]
        have h1 : (peekT (t1 :: (sepChain sep ts2 ++ tail))).kind ≠ lk := by
          rw [peekT_cons, ht1]; exact hik2
        simp only [itemlist, maybeK_no lk _ h1, hf t1 _ ht1]
        rfl
      refine ⟨?_, ?_, ?_⟩
      · rw [hstep commaTok (lkt :: rest)]
        exact (itemlistCont_comma f g itemKind lk lkt hf hik1 hik2 hlk2 hlk3 hlk4
          hlk5 hlk6 hlkt ts2 fuel (g t1) rest hall2 hfl).1
      · rw [hstep commaTok (commaTok :: lkt :: rest)]
        exact (itemlistCont_comma f g itemKind lk lkt hf hik1 hik2 hlk2 hlk3 hlk4
          hlk5 hlk6 hlkt ts2 fuel (g t1) rest hall2 hfl).2
      · rw [hstep newlineTok (lkt :: rest)]
        exact itemlistCont_newline f g itemKind lk lkt hf hik1 hik2 hlk2 hlk3 hlk4
          hlk5 hlk6 hlkt ts2 fuel (g t1) rest hall2 hfl
  · intro f lk lkt rest fuel h3 h4 h5 h6 hlkt
    have hpk : (peekT (lkt :: rest)).kind = lk := by rw [peekT_cons, hlkt]
    simp only [itemlist, maybeK_yes lk _ hpk,
      nextT_noskip lkt rest (hlkt ▸ h3) (hlkt ▸ h4) (hlkt ▸ h5) (hlkt ▸ h6)]

/-- A concrete one-token item rule for the witness: consume one token of
kind ITEM and return its text. -/
def wItemF : SRule := fun s =>
  match s with
  | t :: rest => if t.kind = "ITEM" then .ok (.str t.value, rest) else .error .pythonError
  | [] => .error .pythonError

/-- Witness for C2 at `N = 2`: two ITEM tokens joined by a comma (with
and without a trailing comma) and joined by a newline all give the same
two-element list, and a bare RBRACE gives the empty list with an item
function that always crashes — so it was never invoked. -/
theorem itemlist_separator_laws_witness :
    itemlist 10 wItemF "RBRACE" true
        [⟨"ITEM", "a"⟩, commaTok, ⟨"ITEM", "b"⟩, ⟨"RBRACE", "\x7d"⟩] =
      .ok (SVal.ofList [.str "a", .str "b"], [])
    ∧ itemlist 10 wItemF "RBRACE" true
        [⟨"ITEM", "a"⟩, commaTok, ⟨"ITEM", "b"⟩, commaTok, ⟨"RBRACE", "\x7d"⟩] =
      .ok (SVal.ofList [.str "a", .str "b"], [])
    ∧ itemlist 10 wItemF "RBRACE" true
        [⟨"ITEM", "a"⟩, newlineTok, ⟨"ITEM", "b"⟩, ⟨"RBRACE", "\x7d"⟩] =
      .ok (SVal.ofList [.str "a", .str "b"], [])
    ∧ itemlist 10 (fun _ => .error .pythonError) "RBRACE" true [⟨"RBRACE", "\x7d"⟩] =
      .ok (SVal.ofList [], []) := by
  have hf : ∀ (t : Token) (r2 : List Token), t.kind = "ITEM" →
      wItemF (t :: r2) = .ok (.str t.value, r2) := by
    intro t r2 h
    simp [wItemF, h]
  have h := itemlist_separator_laws.1 wItemF (fun t => .str t.value) "ITEM" "RBRACE"
    ⟨"RBRACE", "\x7d"⟩ [⟨"ITEM", "a"⟩, ⟨"ITEM", "b"⟩] [] 10 hf
    (by decide) (by decide) (by decide) (by decide) (by decide)
    (by decide) (by decide) (by decide) rfl (by decide) (by decide) (by decide)
  refine ⟨?_, ?_, ?_, ?_⟩
  · simpa using h.1
  · simpa using h.2.1
  · simpa using h.2.2
  · exact itemlist_separator_laws.2 (fun _ => .error .pythonError) "RBRACE"
      ⟨"RBRACE", "\x7d"⟩ [] 10 (by decide) (by decide) (by decide) (by decide) rfl
